import Mathlib

/-!
# Verification of the RRZ Unified AI Gateway (netlify/functions/ai.js)

A shallow embedding of the gateway function in Lean 4, together with proofs
about its behaviour. JavaScript values flowing through the handler are JSON
values (everything the handler touches comes from `JSON.parse` or is built
from literals), so the value model is a `Json` datatype; JS truthiness,
member access, `||`-chaining and `toString` are modelled explicitly.

Modelling choices, stated once:
* JSON numbers are modelled as integers (`Int`); the gateway never computes
  with non-integer numbers except the default temperature 0.2, which is kept
  in a separate `Rat`-valued field and never serialized.
* `JSON.parse` is modelled by a fuel-indexed recursive-descent parser over
  `List Char` (`parseVal`), and `JSON.stringify` by `strVal`; the round trip
  `parseVal (strVal j ++ rest) = some (j, rest)` is proved below for every
  value of the model.
* Strings are sequences of unicode scalars; lengths count characters.
* Time is an integer millisecond clock passed explicitly; the upstream HTTP
  call is an oracle value (`FetchOutcome`) passed per attempt, which models
  network failure / abort-on-timeout as one constructor and an HTTP response
  (ok flag, status, body text) as the other.
* A JS exception escaping the handler is modelled by `Except.error`; the
  error's `message` string and the `String(e)` conversion are modelled.
-/

/-! ## Characters and small helpers -/

/-- The whitespace characters recognised by `JSON.parse` (also used for the
model of `String.prototype.trim`). -/
def isWsChar (c : Char) : Bool :=
  c = ' ' || c = '\t' || c = '\n' || c = '\r'

/-- ASCII decimal digit test. -/
def isDigitChar (c : Char) : Bool :=
  '0' ≤ c && c ≤ '9'

/-- The character for one decimal digit. -/
def decChar (d : Nat) : Char := Char.ofNat (48 + d)

/-- The character for one hexadecimal nibble (lower case, as emitted by
`JSON.stringify` for control characters). -/
def nibChar (d : Nat) : Char :=
  if d < 10 then Char.ofNat (48 + d) else Char.ofNat (87 + d)

/-- The value of one hexadecimal digit character, if it is one. -/
def nibVal (c : Char) : Option Nat :=
  if '0' ≤ c && c ≤ '9' then some (c.toNat - 48)
  else if 'a' ≤ c && c ≤ 'f' then some (c.toNat - 87)
  else if 'A' ≤ c && c ≤ 'F' then some (c.toNat - 55)
  else none

/-- Decimal digit characters of a positive number, most significant first,
pushed onto `acc`; `fuel` bounds the recursion (`fuel ≥ n` suffices). -/
def printNatAux : Nat → Nat → List Char → List Char
  | 0, _, acc => acc
  | fuel + 1, n, acc =>
    if n = 0 then acc else printNatAux fuel (n / 10) (decChar (n % 10) :: acc)

/-- Decimal digit characters of a natural number (`"0"` for zero). -/
def printNat (n : Nat) : List Char :=
  if n = 0 then ['0'] else printNatAux n n []

/-- Decimal characters of an integer: optional minus sign, then digits. -/
def printInt (i : Int) : List Char :=
  if i < 0 then '-' :: printNat i.natAbs else printNat i.toNat

/-! ## The JSON value model -/

mutual
/-- A JSON value. Objects keep their members in order (as `JSON.stringify`
prints them); numbers are restricted to integers (see the header comment). -/
inductive Json where
  | null
  | bool (b : Bool)
  | num (n : Int)
  | str (s : String)
  | arr (elems : JsonList)
  | obj (members : JsonObj)
  deriving DecidableEq
/-- The elements of a JSON array. -/
inductive JsonList where
  | nil
  | cons (head : Json) (tail : JsonList)
  deriving DecidableEq
/-- The members of a JSON object, in insertion order. -/
inductive JsonObj where
  | nil
  | cons (key : String) (value : Json) (tail : JsonObj)
  deriving DecidableEq
end

/-- Build an object member list from a Lean list literal. -/
def mkObj : List (String × Json) → JsonObj
  | [] => .nil
  | (k, v) :: rest => .cons k v (mkObj rest)

/-- Build an array element list from a Lean list literal. -/
def mkArr : List Json → JsonList
  | [] => .nil
  | v :: rest => .cons v (mkArr rest)

/-- JS truthiness of a JSON value (`undefined` is conflated with `null`,
which is faithful for every use in the gateway: both are falsy and both
print as absent). -/
def jsTruthy : Json → Bool
  | .null => false
  | .bool b => b
  | .num n => n ≠ 0
  | .str s => s ≠ ""
  | .arr _ => true
  | .obj _ => true

/-- The JS `a || b` operator on values. -/
def jsOr (a b : Json) : Json :=
  if jsTruthy a then a else b

/-- The last value bound to `key`, if any (property access on an object
built by `JSON.parse` sees the last duplicate, hence a right-biased scan). -/
def objLookup : JsonObj → String → Option Json
  | .nil, _ => none
  | .cons k v rest, key =>
    match objLookup rest key with
    | some w => some w
    | none => if k = key then some v else none

/-- JS member access `x.key` (with `?.` semantics folded in): reading a
property of a non-object, of `null`, or a missing property gives
`undefined`, modelled as `.null`. -/
def getField (j : Json) (key : String) : Json :=
  match j with
  | .obj members => (objLookup members key).getD .null
  | _ => .null

/-- JS index access `x[i]` on an array value (`undefined` ↦ `.null`). -/
def jsIndex (j : Json) (i : Nat) : Json :=
  match j, i with
  | .arr (.cons h _), 0 => h
  | .arr (.cons _ t), Nat.succ i => jsIndex (.arr t) i
  | _, _ => .null

mutual
/-- The JS `String(x)` / `x.toString()` conversion on a JSON value:
arrays join their elements with commas (`null` elements print empty),
objects print as `"[object Object]"`. -/
def jsToString : Json → String
  | .null => "null"
  | .bool true => "true"
  | .bool false => "false"
  | .num n => String.mk (printInt n)
  | .str s => s
  | .arr elems => jsListToString elems
  | .obj _ => "[object Object]"
/-- Comma-joined rendering of array elements, as `Array.prototype.toString`
(a `null` element joins as the empty string). -/
def jsListToString : JsonList → String
  | .nil => ""
  | .cons .null .nil => ""
  | .cons h .nil => jsToString h
  | .cons .null t => "," ++ jsListToString t
  | .cons h t => jsToString h ++ "," ++ jsListToString t
end

/-! ## `JSON.stringify` -/

/-- One character of a JSON string body, escaped exactly as
`JSON.stringify` escapes it. -/
def escChar (c : Char) : List Char :=
  if c = '"' then ['\\', '"']
  else if c = '\\' then ['\\', '\\']
  else if c = '\x08' then ['\\', 'b']
  else if c = '\t' then ['\\', 't']
  else if c = '\n' then ['\\', 'n']
  else if c = '\x0c' then ['\\', 'f']
  else if c = '\r' then ['\\', 'r']
  else if c.toNat < 32 then
    ['\\', 'u', '0', '0', nibChar (c.toNat / 16), nibChar (c.toNat % 16)]
  else [c]

/-- A JSON string body, escaped. -/
def escStr : List Char → List Char
  | [] => []
  | c :: rest => escChar c ++ escStr rest

/-- A quoted JSON string literal. -/
def quoteStr (s : String) : List Char :=
  '"' :: (escStr s.data ++ ['"'])

mutual
/-- `JSON.stringify` (no indentation), producing characters. -/
def strVal : Json → List Char
  | .num n => printInt n
  | .null => 'n' :: 'u' :: 'l' :: ['l']
  | .bool true => 't' :: 'r' :: 'u' :: ['e']
  | .bool false => 'f' :: 'a' :: 'l' :: 's' :: ['e']
  | .str s => quoteStr s
  | .arr elems => '[' :: (strItems elems ++ [']'])
  | .obj members => '{' :: (strMems members ++ ['}'])
/-- Array elements, comma separated. -/
def strItems : JsonList → List Char
  | .nil => []
  | .cons h .nil => strVal h
  | .cons h t => strVal h ++ ',' :: strItems t
/-- Object members, comma separated. -/
def strMems : JsonObj → List Char
  | .nil => []
  | .cons k v .nil => quoteStr k ++ ':' :: strVal v
  | .cons k v t => quoteStr k ++ ':' :: strVal v ++ ',' :: strMems t
end

/-- `JSON.stringify` as a string-valued function. -/
def jsonStringify (j : Json) : String := String.mk (strVal j)

/-! ## `JSON.parse` -/

/-- Skip JSON whitespace. -/
def skipWs (cs : List Char) : List Char := cs.dropWhile isWsChar

/-- Consume a maximal run of decimal digits, accumulating their value. -/
def takeDigits : List Char → Nat → Nat × List Char
  | c :: cs, acc =>
    if isDigitChar c then takeDigits cs (acc * 10 + (c.toNat - 48)) else (acc, c :: cs)
  | [], acc => (acc, [])

/-- Parse a nonempty digit run (the input must start with a digit). -/
def parseNumCore (cs : List Char) : Option (Nat × List Char) :=
  match cs with
  | c :: _ => if isDigitChar c then some (takeDigits cs 0) else none
  | [] => none

/-- Simple escape characters of JSON string syntax. -/
def unescChar : Char → Option Char
  | '"' => some '"'
  | '\\' => some '\\'
  | '/' => some '/'
  | 'b' => some '\x08'
  | 'f' => some '\x0c'
  | 'n' => some '\n'
  | 'r' => some '\r'
  | 't' => some '\t'
  | _ => none

/-- Parse a JSON string body after the opening quote, returning the decoded
characters and the input after the closing quote. Unescaped control
characters are rejected, as `JSON.parse` rejects them. -/
def parseStrBody : List Char → Option (List Char × List Char)
  | '"' :: rest => some ([], rest)
  | '\\' :: 'u' :: h1 :: h2 :: h3 :: h4 :: rest =>
    (match nibVal h1, nibVal h2, nibVal h3, nibVal h4 with
     | some a, some b, some c, some d =>
       (parseStrBody rest).map
         (fun p => (Char.ofNat (((a * 16 + b) * 16 + c) * 16 + d) :: p.1, p.2))
     | _, _, _, _ => none)
  | '\\' :: e :: rest =>
    (unescChar e).bind (fun c => (parseStrBody rest).map (fun p => (c :: p.1, p.2)))
  | c :: rest =>
    if c.toNat < 32 then none
    else (parseStrBody rest).map (fun p => (c :: p.1, p.2))
  | [] => none

mutual
/-- Recursive-descent JSON value parser; `fuel` bounds the recursion and
`fuel = input length + 1` is always enough (proved by the round-trip
theorems together with `parseJsonList`). -/
def parseVal : Nat → List Char → Option (Json × List Char)
  | 0, _ => none
  | fuel + 1, cs =>
    match skipWs cs with
    | 'n' :: 'u' :: 'l' :: 'l' :: rest => some (.null, rest)
    | 't' :: 'r' :: 'u' :: 'e' :: rest => some (.bool true, rest)
    | 'f' :: 'a' :: 'l' :: 's' :: 'e' :: rest => some (.bool false, rest)
    | '"' :: rest =>
      (parseStrBody rest).map (fun p => (.str (String.mk p.1), p.2))
    | '[' :: rest =>
      (match skipWs rest with
       | ']' :: rest1 => some (.arr .nil, rest1)
       | other => (parseItems fuel other).map (fun p => (.arr p.1, p.2)))
    | '{' :: rest =>
      (match skipWs rest with
       | '}' :: rest1 => some (.obj .nil, rest1)
       | other => (parseMems fuel other).map (fun p => (.obj p.1, p.2)))
    | '-' :: rest =>
      (parseNumCore rest).map (fun p => (.num (-(p.1 : Int)), p.2))
    | c :: rest =>
      if isDigitChar c then
        (parseNumCore (c :: rest)).map (fun p => (.num (p.1 : Int), p.2))
      else none
    | [] => none
/-- One-or-more comma separated array elements, up to the closing bracket. -/
def parseItems : Nat → List Char → Option (JsonList × List Char)
  | 0, _ => none
  | fuel + 1, cs =>
    match parseVal fuel cs with
    | none => none
    | some (v, rest) =>
      match skipWs rest with
      | ',' :: rest1 =>
        (parseItems fuel rest1).map (fun p => (.cons v p.1, p.2))
      | ']' :: rest1 => some (.cons v .nil, rest1)
      | _ => none
/-- One-or-more comma separated object members, up to the closing brace. -/
def parseMems : Nat → List Char → Option (JsonObj × List Char)
  | 0, _ => none
  | fuel + 1, cs =>
    match skipWs cs with
    | '"' :: rest =>
      (match parseStrBody rest with
       | none => none
       | some (key, rest1) =>
         match skipWs rest1 with
         | ':' :: rest2 =>
           (match parseVal fuel rest2 with
            | none => none
            | some (v, rest3) =>
              match skipWs rest3 with
              | ',' :: rest4 =>
                (parseMems fuel rest4).map
                  (fun p => (.cons (String.mk key) v p.1, p.2))
              | '}' :: rest4 => some (.cons (String.mk key) v .nil, rest4)
              | _ => none)
         | _ => none)
    | _ => none
end

/-- `JSON.parse` on characters: a complete value followed only by
whitespace; `none` models a thrown `SyntaxError`. -/
def parseJsonList (cs : List Char) : Option Json :=
  match parseVal (cs.length + 1) cs with
  | some (j, rest) => if (skipWs rest).isEmpty then some j else none
  | none => none

/-- `JSON.parse` on a string, `none` for a syntax error. -/
def jsonParseOpt (s : String) : Option Json := parseJsonList s.data

/-- `safeJsonParse` from the source: `JSON.parse` with errors caught and
turned into `null` (line 64-66 of ai.js). -/
def safeJsonParse (s : String) : Json := (jsonParseOpt s).getD .null

example : safeJsonParse "\x7b\"a\":1\x7d" = .obj (.cons "a" (.num 1) .nil) := by decide
example : safeJsonParse "not json at all" = .null := by decide
example : safeJsonParse " [1, -2, \"x\"] " =
    .arr (.cons (.num 1) (.cons (.num (-2)) (.cons (.str "x") .nil))) := by decide

/-! ## `extractJson` and its helpers -/

/-- `String.prototype.trim` on characters (both ends). -/
def trimList (cs : List Char) : List Char :=
  ((cs.dropWhile isWsChar).reverse.dropWhile isWsChar).reverse

/-- `String.prototype.trim`. -/
def jsTrimStr (s : String) : String := String.mk (trimList s.data)

/-- Keep the input up to and including the last occurrence of `'}'`
(`none` if there is none). -/
def upToLastBrace (cs : List Char) : Option (List Char) :=
  match cs.reverse.dropWhile (fun c => c ≠ '}') with
  | [] => none
  | r => some r.reverse

/-- The match of the greedy regex `/\x7b[\s\S]*\x7d/`: from the first `'{'`
that is followed somewhere by a `'}'`, up to the last `'}'` of the input. -/
def jsonBlockMatch (cs : List Char) : Option (List Char) :=
  match cs.dropWhile (fun c => c ≠ '{') with
  | [] => none
  | h :: rest => (upToLastBrace rest).map (fun m => h :: m)

/-- `clampString` from the source (lines 68-72): `(s ?? '').toString()`
truncated to `max` characters. -/
def clampString (j : Json) (max : Nat) : String :=
  let x := jsToString (if j = .null then .str "" else j)
  if x.length ≤ max then x else String.mk (x.data.take max)

/-- `extractJson` from the source (lines 251-265): trim the raw value's
string form; try a direct parse; if that is not truthy, try the first
greedy brace-delimited block; `null` when nothing truthy is found. -/
def extractJson (raw : Json) : Json :=
  let s := trimList (jsToString (jsOr raw (.str ""))).data
  if s.isEmpty then .null
  else
    let direct := safeJsonParse (String.mk s)
    if jsTruthy direct then direct
    else
      match jsonBlockMatch s with
      | some m =>
        let inner := safeJsonParse (String.mk m)
        if jsTruthy inner then inner else .null
      | none => .null

example : extractJson (.str "Here is the result: \x7b\"a\":1\x7d Thanks") =
    .obj (.cons "a" (.num 1) .nil) := by decide
example : extractJson (.str "not json at all") = .null := by decide
example : extractJson (.str "null") = .null := by decide
example : extractJson (.str " \x7b\"b\":[true]\x7d ") =
    .obj (.cons "b" (.arr (.cons (.bool true) .nil)) .nil) := by decide

/-! ## Round trip: digits and numbers -/

/-- The accumulator step of `takeDigits`. -/
def digStep (a : Nat) (c : Char) : Nat := a * 10 + (c.toNat - 48)

theorem printNatAux_zero (fuel : Nat) (acc : List Char) :
    printNatAux fuel 0 acc = acc := by
  cases fuel <;> simp [printNatAux]

theorem printNatAux_acc (fuel : Nat) : ∀ (n : Nat) (acc : List Char),
    printNatAux fuel n acc = printNatAux fuel n [] ++ acc := by
  induction fuel with
  | zero => intro n acc; simp [printNatAux]
  | succ f ih =>
    intro n acc
    by_cases hn : n = 0
    · simp [printNatAux, hn]
    · rw [printNatAux, printNatAux, if_neg hn, if_neg hn, ih (n / 10),
        ih (n / 10) [decChar (n % 10)]]
      simp

theorem decChar_spec : ∀ d, d < 10 →
    isDigitChar (decChar d) = true ∧ (decChar d).toNat - 48 = d := by decide

theorem printNatAux_spec (fuel : Nat) : ∀ n : Nat, 0 < n → n ≤ fuel →
    printNatAux fuel n [] ≠ [] ∧
    (∀ c ∈ printNatAux fuel n [], isDigitChar c = true) ∧
    (∀ acc0 : Nat,
      List.foldl digStep acc0 (printNatAux fuel n []) =
        acc0 * 10 ^ (printNatAux fuel n []).length + n) := by
  induction fuel with
  | zero => intro n h1 h2; omega
  | succ f ih =>
    intro n h1 h2
    have hstep : printNatAux (f + 1) n [] =
        printNatAux f (n / 10) [] ++ [decChar (n % 10)] := by
      rw [printNatAux, if_neg (by omega), printNatAux_acc]
    obtain ⟨hdig, hval⟩ := decChar_spec (n % 10) (Nat.mod_lt _ (by omega))
    by_cases h10 : n < 10
    · have hq : n / 10 = 0 := Nat.div_eq_of_lt h10
      rw [hstep, hq, printNatAux_zero]
      refine ⟨by simp, ?_, ?_⟩
      · intro c hc
        simp only [List.nil_append, List.mem_singleton] at hc
        rw [hc]; exact hdig
      · intro acc0
        simp only [List.nil_append, List.foldl_cons, List.foldl_nil,
          List.length_singleton, digStep, hval]
        have : n % 10 = n := Nat.mod_eq_of_lt h10
        omega
    · have hq1 : 0 < n / 10 := Nat.div_pos (by omega) (by omega)
      have hq2 : n / 10 ≤ f := by
        have := Nat.div_lt_self h1 (by omega : (1:Nat) < 10)
        omega
      obtain ⟨hne, hall, hfold⟩ := ih (n / 10) hq1 hq2
      rw [hstep]
      refine ⟨by simp, ?_, ?_⟩
      · intro c hc
        rw [List.mem_append, List.mem_singleton] at hc
        rcases hc with hc | hc
        · exact hall c hc
        · rw [hc]; exact hdig
      · intro acc0
        rw [List.foldl_append, hfold, List.length_append, List.length_singleton,
          List.foldl_cons, List.foldl_nil]
        simp only [digStep, hval]
        rw [pow_succ]
        have hmod : n % 10 + 10 * (n / 10) = n := Nat.mod_add_div n 10
        ring_nf
        omega

theorem printNat_spec (n : Nat) :
    printNat n ≠ [] ∧ (∀ c ∈ printNat n, isDigitChar c = true) ∧
    List.foldl digStep 0 (printNat n) = n := by
  by_cases h : n = 0
  · subst h
    refine ⟨by decide, ?_, by decide⟩
    intro c hc
    have hp : printNat 0 = ['0'] := rfl
    rw [hp, List.mem_singleton] at hc
    subst hc; decide
  · obtain ⟨h1, h2, h3⟩ := printNatAux_spec n n (by omega) le_rfl
    rw [printNat, if_neg h]
    exact ⟨h1, h2, by simpa using h3 0⟩

/-- A remainder that cannot extend a digit run. -/
def numDelim (cs : List Char) : Bool :=
  match cs with
  | [] => true
  | c :: _ => !(isDigitChar c)

theorem takeDigits_of_delim {cs : List Char} (h : numDelim cs = true) :
    ∀ acc, takeDigits cs acc = (acc, cs) := by
  intro acc
  match cs with
  | [] => rfl
  | c :: t =>
    simp only [numDelim, Bool.not_eq_true'] at h
    simp [takeDigits, h]

theorem takeDigits_run (ds : List Char) (hds : ∀ c ∈ ds, isDigitChar c = true)
    {rest : List Char} (hrest : numDelim rest = true) :
    ∀ acc, takeDigits (ds ++ rest) acc = (List.foldl digStep acc ds, rest) := by
  induction ds with
  | nil => intro acc; simpa using takeDigits_of_delim hrest acc
  | cons c t ih =>
    intro acc
    have hc : isDigitChar c = true := hds c (List.mem_cons_self ..)
    rw [List.cons_append, takeDigits, if_pos hc,
      ih (fun x hx => hds x (List.mem_cons_of_mem _ hx))]
    rfl

theorem parseNumCore_printNat (n : Nat) {rest : List Char}
    (hrest : numDelim rest = true) :
    parseNumCore (printNat n ++ rest) = some (n, rest) := by
  obtain ⟨hne, hall, hfold⟩ := printNat_spec n
  match hp : printNat n with
  | [] => exact absurd hp hne
  | c :: t =>
    have hc : isDigitChar c = true := hall c (by rw [hp]; exact List.mem_cons_self ..)
    have htd := takeDigits_run (printNat n) hall hrest 0
    rw [hp, List.cons_append] at htd
    rw [hp] at hfold
    simp only [List.cons_append, parseNumCore, hc, if_pos]
    rw [htd, hfold]

/-! ## Round trip: strings -/

theorem charOfNat_small {c : Char} (h : c.toNat < 55296) :
    Char.ofNat c.toNat = c := by
  have hv : Nat.isValidChar c.toNat := Or.inl h
  apply Char.ext
  rw [Char.ofNat, dif_pos hv]
  simp [Char.ofNatAux, Char.toNat]
  apply UInt32.ext
  rfl

theorem nibVal_nibChar : ∀ d, d < 16 → nibVal (nibChar d) = some d := by decide

/-- Every control character's escape is undone by the parser (checked per
code point, where both sides evaluate). -/
theorem parseStrBody_escChar_small (k : Nat) (hk : k < 32) (rest : List Char) :
    parseStrBody (escChar (Char.ofNat k) ++ rest) =
      (parseStrBody rest).map (fun p => (Char.ofNat k :: p.1, p.2)) := by
  interval_cases k <;> rfl

theorem parseStrBody_escChar (c : Char) (rest : List Char) :
    parseStrBody (escChar c ++ rest) =
      (parseStrBody rest).map (fun p => (c :: p.1, p.2)) := by
  by_cases h8 : c.toNat < 32
  · have := parseStrBody_escChar_small c.toNat (by omega) rest
    rwa [charOfNat_small (by omega)] at this
  rw [escChar]
  by_cases h1 : c = '"'
  · subst h1; rw [if_pos rfl]; rfl
  rw [if_neg h1]
  by_cases h2 : c = '\\'
  · subst h2; rw [if_pos rfl]; rfl
  rw [if_neg h2]
  have h3 : c ≠ '\x08' := by intro h; subst h; exact h8 (by decide)
  have h4 : c ≠ '\t' := by intro h; subst h; exact h8 (by decide)
  have h5 : c ≠ '\n' := by intro h; subst h; exact h8 (by decide)
  have h6 : c ≠ '\x0c' := by intro h; subst h; exact h8 (by decide)
  have h7 : c ≠ '\r' := by intro h; subst h; exact h8 (by decide)
  rw [if_neg h3, if_neg h4, if_neg h5, if_neg h6, if_neg h7, if_neg h8,
    List.singleton_append, parseStrBody.eq_def]
  split
  · rename_i heq
    rw [List.cons_eq_cons] at heq
    exact absurd heq.1 h1
  · rename_i heq
    rw [List.cons_eq_cons] at heq
    exact absurd heq.1 h2
  · rename_i heq
    rw [List.cons_eq_cons] at heq
    exact absurd heq.1 h2
  · rename_i c' rest' heq
    rw [List.cons_eq_cons] at heq
    obtain ⟨rfl, rfl⟩ := heq
    rw [if_neg h8]
  · rename_i heq
    exact absurd heq (by simp)

theorem parseStrBody_escStr (l : List Char) : ∀ rest : List Char,
    parseStrBody (escStr l ++ '"' :: rest) = some (l, rest) := by
  induction l with
  | nil => intro rest; rfl
  | cons c t ih =>
    intro rest
    rw [escStr, List.append_assoc, parseStrBody_escChar, ih]
    rfl

theorem stringMk_data (s : String) : String.mk s.data = s := rfl

theorem parseVal_quoteStr (f : Nat) (s : String) (rest : List Char) :
    parseVal (f + 1) (quoteStr s ++ rest) = some (.str s, rest) := by
  have harg : quoteStr s ++ rest = '"' :: (escStr s.data ++ '"' :: rest) := by
    simp [quoteStr]
  rw [harg]
  show (parseStrBody (escStr s.data ++ '"' :: rest)).map
      (fun p => (Json.str (String.mk p.1), p.2)) = some (.str s, rest)
  rw [parseStrBody_escStr]
  rfl

/-! ## Round trip: heads and dispatch -/

theorem skipWs_not_ws {c : Char} (h : isWsChar c = false) (cs : List Char) :
    skipWs (c :: cs) = c :: cs := by
  simp [skipWs, List.dropWhile_cons, h]

theorem digit_char_facts {c : Char} (h : isDigitChar c = true) :
    isWsChar c = false ∧ c ≠ ']' ∧ c ≠ '}' ∧ c ≠ ',' ∧ c ≠ 'n' ∧ c ≠ 't' ∧
      c ≠ 'f' ∧ c ≠ '"' ∧ c ≠ '[' ∧ c ≠ '{' ∧ c ≠ '-' := by
  have hsp : c ≠ ' ' := by intro hq; subst hq; exact absurd h (by decide)
  have htb : c ≠ '\t' := by intro hq; subst hq; exact absurd h (by decide)
  have hnl : c ≠ '\n' := by intro hq; subst hq; exact absurd h (by decide)
  have hcr : c ≠ '\r' := by intro hq; subst hq; exact absurd h (by decide)
  refine ⟨?_, ?_, ?_, ?_, ?_, ?_, ?_, ?_, ?_, ?_, ?_⟩
  · simp only [isWsChar, Bool.or_eq_false_iff, decide_eq_false_iff_not]
    exact ⟨⟨⟨hsp, htb⟩, hnl⟩, hcr⟩
  all_goals intro hq; subst hq; exact absurd h (by decide)

theorem printNat_head (n : Nat) :
    ∃ c t, printNat n = c :: t ∧ isDigitChar c = true := by
  obtain ⟨hne, hall, _⟩ := printNat_spec n
  match hp : printNat n with
  | [] => exact absurd hp hne
  | c :: t =>
    exact ⟨c, t, rfl, hall c (by rw [hp]; exact List.mem_cons_self ..)⟩

theorem strVal_head (j : Json) :
    ∃ c t, strVal j = c :: t ∧ isWsChar c = false ∧ c ≠ ']' ∧ c ≠ '}' ∧
      c ≠ ',' := by
  cases j with
  | null => exact ⟨'n', _, rfl, by decide, by decide, by decide, by decide⟩
  | bool b =>
    cases b with
    | true => exact ⟨'t', _, rfl, by decide, by decide, by decide, by decide⟩
    | false => exact ⟨'f', _, rfl, by decide, by decide, by decide, by decide⟩
  | num n =>
    by_cases hn : n < 0
    · refine ⟨'-', printNat n.natAbs, ?_, by decide, by decide, by decide,
        by decide⟩
      rw [strVal, printInt, if_pos hn]
    · obtain ⟨c, t, hp, hc⟩ := printNat_head n.toNat
      obtain ⟨hws, hbr, hbc, hcm, _⟩ := digit_char_facts hc
      refine ⟨c, t, ?_, hws, hbr, hbc, hcm⟩
      rw [strVal, printInt, if_neg hn, hp]
  | str s => exact ⟨'"', _, rfl, by decide, by decide, by decide, by decide⟩
  | arr elems => exact ⟨'[', _, rfl, by decide, by decide, by decide, by decide⟩
  | obj members => exact ⟨'{', _, rfl, by decide, by decide, by decide, by decide⟩

theorem strVal_length_pos (j : Json) : 1 ≤ (strVal j).length := by
  obtain ⟨c, t, hc, _⟩ := strVal_head j
  rw [hc]; simp

theorem strItems_cons_shape (h : Json) (t : JsonList) :
    ∃ x, strItems (.cons h t) = strVal h ++ x := by
  cases t with
  | nil => exact ⟨[], by simp [strItems]⟩
  | cons h2 t2 => exact ⟨',' :: strItems (.cons h2 t2), rfl⟩

theorem parseVal_digit (f : Nat) {c : Char} (hc : isDigitChar c = true)
    (t : List Char) :
    parseVal (f + 1) (c :: t) =
      (parseNumCore (c :: t)).map (fun p => (.num (p.1 : Int), p.2)) := by
  obtain ⟨hws, _, _, _, hn, ht, hf, hq, hbk, hbc, hm⟩ := digit_char_facts hc
  rw [parseVal.eq_def]
  simp only []
  rw [skipWs_not_ws hws]
  split
  · rename_i heq; rw [List.cons_eq_cons] at heq; exact absurd heq.1 hn
  · rename_i heq; rw [List.cons_eq_cons] at heq; exact absurd heq.1 ht
  · rename_i heq; rw [List.cons_eq_cons] at heq; exact absurd heq.1 hf
  · rename_i heq; rw [List.cons_eq_cons] at heq; exact absurd heq.1 hq
  · rename_i heq; rw [List.cons_eq_cons] at heq; exact absurd heq.1 hbk
  · rename_i heq; rw [List.cons_eq_cons] at heq; exact absurd heq.1 hbc
  · rename_i heq; rw [List.cons_eq_cons] at heq; exact absurd heq.1 hm
  · rename_i c' t' heq
    rw [List.cons_eq_cons] at heq
    obtain ⟨rfl, rfl⟩ := heq
    rw [if_pos hc]
  · rename_i heq; exact absurd heq (by simp)

theorem parseVal_printInt (f : Nat) (n : Int) {rest : List Char}
    (hrest : numDelim rest = true) :
    parseVal (f + 1) (printInt n ++ rest) = some (.num n, rest) := by
  by_cases hn : n < 0
  · rw [printInt, if_pos hn, List.cons_append]
    have hstep : parseVal (f + 1) ('-' :: (printNat n.natAbs ++ rest)) =
        (parseNumCore (printNat n.natAbs ++ rest)).map
          (fun p => (.num (-(p.1 : Int)), p.2)) := rfl
    rw [hstep, parseNumCore_printNat _ hrest]
    simp only [Option.map_some', Option.some.injEq, Prod.mk.injEq,
      Json.num.injEq]
    exact ⟨by omega, trivial⟩
  · rw [printInt, if_neg hn]
    obtain ⟨c, t, hp, hc⟩ := printNat_head n.toNat
    have hcore := parseNumCore_printNat n.toNat hrest
    rw [hp, List.cons_append] at hcore ⊢
    rw [parseVal_digit f hc, hcore]
    simp only [Option.map_some', Option.some.injEq, Prod.mk.injEq,
      Json.num.injEq]
    exact ⟨by omega, trivial⟩

/-! ## Round trip: arrays, objects, and the main theorem -/

theorem parseVal_arr_step (f : Nat) (h : Json) (t : JsonList)
    (rest : List Char) :
    parseVal (f + 1) ('[' :: (strItems (.cons h t) ++ ']' :: rest)) =
      (parseItems f (strItems (.cons h t) ++ ']' :: rest)).map
        (fun p => (Json.arr p.1, p.2)) := by
  obtain ⟨c, t', hc, hws, hbr, _, _⟩ := strVal_head h
  obtain ⟨x, hx⟩ := strItems_cons_shape h t
  have hshape : strItems (.cons h t) ++ ']' :: rest =
      c :: (t' ++ (x ++ ']' :: rest)) := by
    rw [hx, hc]; simp
  have hstep : parseVal (f + 1) ('[' :: (strItems (.cons h t) ++ ']' :: rest)) =
      (match skipWs (strItems (.cons h t) ++ ']' :: rest) with
       | ']' :: rest1 => some (.arr .nil, rest1)
       | other => (parseItems f other).map (fun p => (.arr p.1, p.2))) := rfl
  rw [hstep, hshape, skipWs_not_ws hws]
  split
  · rename_i heq
    rw [List.cons_eq_cons] at heq
    exact absurd heq.1 hbr
  · rfl

theorem strMems_cons_shape (k : String) (v : Json) (t : JsonObj) :
    ∃ x, strMems (.cons k v t) = quoteStr k ++ ':' :: (strVal v ++ x) := by
  cases t with
  | nil => exact ⟨[], by simp [strMems]⟩
  | cons k2 v2 t2 =>
    refine ⟨',' :: strMems (.cons k2 v2 t2), ?_⟩
    show quoteStr k ++ ':' :: strVal v ++ ',' :: strMems (.cons k2 v2 t2) = _
    simp

theorem parseVal_obj_step (f : Nat) (k : String) (v : Json) (t : JsonObj)
    (rest : List Char) :
    parseVal (f + 1) ('{' :: (strMems (.cons k v t) ++ '}' :: rest)) =
      (parseMems f (strMems (.cons k v t) ++ '}' :: rest)).map
        (fun p => (Json.obj p.1, p.2)) := by
  obtain ⟨x, hx⟩ := strMems_cons_shape k v t
  have hshape : strMems (.cons k v t) ++ '}' :: rest =
      '"' :: ((escStr k.data ++ ['"']) ++ (':' :: (strVal v ++ x) ++ '}' :: rest)) := by
    rw [hx, quoteStr]; simp
  have hstep : parseVal (f + 1) ('{' :: (strMems (.cons k v t) ++ '}' :: rest)) =
      (match skipWs (strMems (.cons k v t) ++ '}' :: rest) with
       | '}' :: rest1 => some (.obj .nil, rest1)
       | other => (parseMems f other).map (fun p => (.obj p.1, p.2))) := rfl
  rw [hstep, hshape, skipWs_not_ws (by decide)]
  split
  · rename_i heq
    rw [List.cons_eq_cons] at heq
    exact absurd heq.1 (by decide)
  · rfl

theorem roundTrip (fuel : Nat) :
    (∀ (j : Json) (rest : List Char), (strVal j).length < fuel →
      numDelim rest = true →
      parseVal fuel (strVal j ++ rest) = some (j, rest)) ∧
    (∀ (h : Json) (t : JsonList) (rest : List Char),
      (strItems (.cons h t)).length + 1 < fuel →
      parseItems fuel (strItems (.cons h t) ++ ']' :: rest) =
        some (.cons h t, rest)) ∧
    (∀ (k : String) (v : Json) (t : JsonObj) (rest : List Char),
      (strMems (.cons k v t)).length + 1 < fuel →
      parseMems fuel (strMems (.cons k v t) ++ '}' :: rest) =
        some (.cons k v t, rest)) := by
  induction fuel with
  | zero =>
    refine ⟨fun j rest h _ => absurd h (by omega),
      fun h t rest hl => absurd hl (by omega),
      fun k v t rest hl => absurd hl (by omega)⟩
  | succ f ih =>
    obtain ⟨ihv, ihi, ihm⟩ := ih
    refine ⟨?_, ?_, ?_⟩
    · -- values
      intro j rest hlen hdelim
      cases j with
      | null => rfl
      | bool b => cases b <;> rfl
      | num n => exact parseVal_printInt f n hdelim
      | str s => exact parseVal_quoteStr f s rest
      | arr elems =>
        cases elems with
        | nil => rfl
        | cons h t =>
          have harr : strVal (.arr (.cons h t)) ++ rest =
              '[' :: (strItems (.cons h t) ++ ']' :: rest) := by
            show ('[' :: (strItems (.cons h t) ++ [']'])) ++ rest = _
            simp
          rw [harr, parseVal_arr_step]
          have hlen' : (strItems (.cons h t)).length + 1 < f := by
            have hv : (strVal (.arr (.cons h t))).length =
                (strItems (.cons h t)).length + 2 := by
              show ('[' :: (strItems (.cons h t) ++ [']'])).length = _
              simp
            omega
          rw [ihi h t rest hlen']
          rfl
      | obj members =>
        cases members with
        | nil => rfl
        | cons k v t =>
          have hobj : strVal (.obj (.cons k v t)) ++ rest =
              '{' :: (strMems (.cons k v t) ++ '}' :: rest) := by
            show ('{' :: (strMems (.cons k v t) ++ ['}'])) ++ rest = _
            simp
          rw [hobj, parseVal_obj_step]
          have hlen' : (strMems (.cons k v t)).length + 1 < f := by
            have hv : (strVal (.obj (.cons k v t))).length =
                (strMems (.cons k v t)).length + 2 := by
              show ('{' :: (strMems (.cons k v t) ++ ['}'])).length = _
              simp
            omega
          rw [ihm k v t rest hlen']
          rfl
    · -- array items
      intro h t rest hlen
      cases t with
      | nil =>
        have hx : strItems (.cons h .nil) = strVal h := rfl
        rw [hx] at hlen ⊢
        have hstep : parseItems (f + 1) (strVal h ++ ']' :: rest) =
            (match parseVal f (strVal h ++ ']' :: rest) with
             | none => none
             | some (v, rest') =>
               match skipWs rest' with
               | ',' :: rest1 =>
                 (parseItems f rest1).map (fun p => (.cons v p.1, p.2))
               | ']' :: rest1 => some (.cons v .nil, rest1)
               | _ => none) := rfl
        rw [hstep, ihv h (']' :: rest) (by omega) rfl]
        rfl
      | cons h2 t2 =>
        have hx : strItems (.cons h (.cons h2 t2)) ++ ']' :: rest =
            strVal h ++ ',' :: (strItems (.cons h2 t2) ++ ']' :: rest) := by
          show (strVal h ++ ',' :: strItems (.cons h2 t2)) ++ ']' :: rest = _
          simp
        have hlen1 : (strVal h).length < f := by
          have : (strItems (.cons h (.cons h2 t2))).length =
              (strVal h).length + 1 + (strItems (.cons h2 t2)).length := by
            show (strVal h ++ ',' :: strItems (.cons h2 t2)).length = _
            simp; omega
          omega
        have hlen2 : (strItems (.cons h2 t2)).length + 1 < f := by
          have h1 := strVal_length_pos h
          have : (strItems (.cons h (.cons h2 t2))).length =
              (strVal h).length + 1 + (strItems (.cons h2 t2)).length := by
            show (strVal h ++ ',' :: strItems (.cons h2 t2)).length = _
            simp; omega
          omega
        rw [hx]
        have hstep : parseItems (f + 1)
            (strVal h ++ ',' :: (strItems (.cons h2 t2) ++ ']' :: rest)) =
            (match parseVal f
                (strVal h ++ ',' :: (strItems (.cons h2 t2) ++ ']' :: rest)) with
             | none => none
             | some (v, rest') =>
               match skipWs rest' with
               | ',' :: rest1 =>
                 (parseItems f rest1).map (fun p => (.cons v p.1, p.2))
               | ']' :: rest1 => some (.cons v .nil, rest1)
               | _ => none) := rfl
        rw [hstep, ihv h (',' :: (strItems (.cons h2 t2) ++ ']' :: rest)) hlen1 rfl]
        show (parseItems f (strItems (.cons h2 t2) ++ ']' :: rest)).map
            (fun p => (JsonList.cons h p.1, p.2)) =
          some (JsonList.cons h (JsonList.cons h2 t2), rest)
        rw [ihi h2 t2 rest hlen2]
        rfl
    · -- object members
      intro k v t rest hlen
      cases t with
      | nil =>
        have hx : strMems (.cons k v .nil) ++ '}' :: rest =
            '"' :: (escStr k.data ++ '"' :: (':' :: (strVal v ++ '}' :: rest))) := by
          show (quoteStr k ++ ':' :: strVal v) ++ '}' :: rest = _
          simp [quoteStr]
        have hlenv : (strVal v).length < f := by
          have : (strMems (.cons k v .nil)).length =
              (quoteStr k).length + 1 + (strVal v).length := by
            show (quoteStr k ++ ':' :: strVal v).length = _
            simp; omega
          have hq : 2 ≤ (quoteStr k).length := by
            simp [quoteStr]
          omega
        rw [hx]
        have hstep : parseMems (f + 1)
            ('"' :: (escStr k.data ++ '"' :: (':' :: (strVal v ++ '}' :: rest)))) =
            (match parseStrBody (escStr k.data ++ '"' :: (':' :: (strVal v ++ '}' :: rest))) with
             | none => none
             | some (key, rest1) =>
               match skipWs rest1 with
               | ':' :: rest2 =>
                 (match parseVal f rest2 with
                  | none => none
                  | some (w, rest3) =>
                    match skipWs rest3 with
                    | ',' :: rest4 =>
                      (parseMems f rest4).map
                        (fun p => (.cons (String.mk key) w p.1, p.2))
                    | '}' :: rest4 => some (.cons (String.mk key) w .nil, rest4)
                    | _ => none)
               | _ => none) := rfl
        rw [hstep, parseStrBody_escStr]
        show (match parseVal f (strVal v ++ '}' :: rest) with
             | none => none
             | some (w, rest3) =>
               match skipWs rest3 with
               | ',' :: rest4 =>
                 (parseMems f rest4).map
                   (fun p => (JsonObj.cons (String.mk k.data) w p.1, p.2))
               | '}' :: rest4 =>
                 some (JsonObj.cons (String.mk k.data) w JsonObj.nil, rest4)
               | _ => none) =
          some (JsonObj.cons k v JsonObj.nil, rest)
        rw [ihv v ('}' :: rest) hlenv rfl]
        rfl
      | cons k2 v2 t2 =>
        have hx : strMems (.cons k v (.cons k2 v2 t2)) ++ '}' :: rest =
            '"' :: (escStr k.data ++ '"' ::
              (':' :: (strVal v ++ ',' :: (strMems (.cons k2 v2 t2) ++ '}' :: rest)))) := by
          show (quoteStr k ++ ':' :: strVal v ++ ',' :: strMems (.cons k2 v2 t2)) ++
              '}' :: rest = _
          simp [quoteStr]
        have hlenv : (strVal v).length < f := by
          have : (strMems (.cons k v (.cons k2 v2 t2))).length =
              (quoteStr k).length + 1 + (strVal v).length + 1 +
                (strMems (.cons k2 v2 t2)).length := by
            show (quoteStr k ++ ':' :: strVal v ++ ',' :: strMems (.cons k2 v2 t2)).length = _
            simp; omega
          omega
        have hlenm : (strMems (.cons k2 v2 t2)).length + 1 < f := by
          have hq : 2 ≤ (quoteStr k).length := by
            simp [quoteStr]
          have : (strMems (.cons k v (.cons k2 v2 t2))).length =
              (quoteStr k).length + 1 + (strVal v).length + 1 +
                (strMems (.cons k2 v2 t2)).length := by
            show (quoteStr k ++ ':' :: strVal v ++ ',' :: strMems (.cons k2 v2 t2)).length = _
            simp; omega
          omega
        rw [hx]
        have hstep : parseMems (f + 1)
            ('"' :: (escStr k.data ++ '"' ::
              (':' :: (strVal v ++ ',' :: (strMems (.cons k2 v2 t2) ++ '}' :: rest))))) =
            (match parseStrBody (escStr k.data ++ '"' ::
                (':' :: (strVal v ++ ',' :: (strMems (.cons k2 v2 t2) ++ '}' :: rest)))) with
             | none => none
             | some (key, rest1) =>
               match skipWs rest1 with
               | ':' :: rest2 =>
                 (match parseVal f rest2 with
                  | none => none
                  | some (w, rest3) =>
                    match skipWs rest3 with
                    | ',' :: rest4 =>
                      (parseMems f rest4).map
                        (fun p => (.cons (String.mk key) w p.1, p.2))
                    | '}' :: rest4 => some (.cons (String.mk key) w .nil, rest4)
                    | _ => none)
               | _ => none) := rfl
        rw [hstep, parseStrBody_escStr]
        show (match parseVal f (strVal v ++ ',' :: (strMems (.cons k2 v2 t2) ++ '}' :: rest)) with
             | none => none
             | some (w, rest3) =>
               match skipWs rest3 with
               | ',' :: rest4 =>
                 (parseMems f rest4).map
                   (fun p => (JsonObj.cons (String.mk k.data) w p.1, p.2))
               | '}' :: rest4 =>
                 some (JsonObj.cons (String.mk k.data) w JsonObj.nil, rest4)
               | _ => none) =
          some (JsonObj.cons k v (JsonObj.cons k2 v2 t2), rest)
        rw [ihv v (',' :: (strMems (.cons k2 v2 t2) ++ '}' :: rest)) hlenv rfl]
        show (parseMems f (strMems (.cons k2 v2 t2) ++ '}' :: rest)).map
            (fun p => (JsonObj.cons (String.mk k.data) v p.1, p.2)) =
          some (JsonObj.cons k v (JsonObj.cons k2 v2 t2), rest)
        rw [ihm k2 v2 t2 rest hlenm]
        rfl

theorem parseVal_strVal (j : Json) (fuel : Nat)
    (hf : (strVal j).length < fuel) :
    parseVal fuel (strVal j) = some (j, []) := by
  have h := (roundTrip fuel).1 j [] hf rfl
  simpa using h

/-- `JSON.parse ∘ JSON.stringify` is the identity on the value model. -/
theorem jsonParseOpt_stringify (j : Json) :
    jsonParseOpt (jsonStringify j) = some j := by
  show parseJsonList (strVal j) = some j
  rw [parseJsonList, parseVal_strVal j _ (by omega)]
  rfl

theorem safeJsonParse_stringify (j : Json) :
    safeJsonParse (jsonStringify j) = j := by
  rw [safeJsonParse, jsonParseOpt_stringify]
  rfl

theorem safeJsonParse_mkStrVal (j : Json) :
    safeJsonParse (String.mk (strVal j)) = j :=
  safeJsonParse_stringify j

/-- `trim` does nothing to a string whose two ends are not whitespace. -/
theorem trimList_sandwich {c d : Char} (hc : isWsChar c = false)
    (hd : isWsChar d = false) (xs : List Char) :
    trimList (c :: (xs ++ [d])) = c :: (xs ++ [d]) := by
  rw [trimList, List.dropWhile_cons, hc]
  simp only [Bool.false_eq_true, if_false]
  rw [show (c :: (xs ++ [d])).reverse = d :: (xs.reverse ++ [c]) by simp]
  rw [List.dropWhile_cons, hd]
  simp only [Bool.false_eq_true, if_false]
  simp

/-- `extractJson` recovers any stringified object through its direct-parse
path. -/
theorem extractJson_stringify_obj (fs : JsonObj) :
    extractJson (.str (jsonStringify (.obj fs))) = .obj fs := by
  have hS : (jsonStringify (Json.obj fs)).data = '{' :: (strMems fs ++ ['}']) :=
    rfl
  have hne : jsonStringify (Json.obj fs) ≠ "" := by
    intro h
    have h2 := congrArg String.data h
    rw [hS] at h2
    exact absurd h2 (by simp)
  have htru : jsTruthy (Json.str (jsonStringify (Json.obj fs))) = true := by
    simp [jsTruthy, hne]
  rw [extractJson]
  simp only [jsOr, htru, if_true, jsToString]
  rw [hS, trimList_sandwich (by decide) (by decide)]
  simp only [List.isEmpty_cons, Bool.false_eq_true, if_false]
  rw [show String.mk ('{' :: (strMems fs ++ ['}'])) =
    String.mk (strVal (Json.obj fs)) from rfl]
  rw [safeJsonParse_mkStrVal]
  rfl

/-! ## Constants and the rate limiter (ai.js lines 29-62) -/

/-- `MAX_BODY_CHARS` (line 30): hard cap on the raw body length. -/
def MAX_BODY_CHARS : Nat := 250000

/-- `RATE.windowMs` (line 34). -/
def RATE_windowMs : Int := 60000

/-- `RATE.max` (line 35). -/
def RATE_max : Nat := 40

/-- One rate bucket: window start time and request count. -/
structure Bucket where
  start : Int
  count : Nat
  deriving DecidableEq

/-- The in-memory bucket map (`RATE.buckets`), as an association list. -/
abbrev RateBuckets := List (String × Bucket)

def bucketGet : RateBuckets → String → Option Bucket
  | [], _ => none
  | (k, b) :: rest, ip => if k = ip then some b else bucketGet rest ip

def bucketSet : RateBuckets → String → Bucket → RateBuckets
  | [], ip, b => [(ip, b)]
  | (k, b0) :: rest, ip, b =>
    if k = ip then (k, b) :: rest else (k, b0) :: bucketSet rest ip b

/-- `rateLimit` (lines 52-62): fetch or create the bucket, reset it when the
window has elapsed, increment, store, and allow while within the max. The
current time is an explicit argument (`now()` in the source). -/
def rateLimit (t : Int) (ip : String) (m : RateBuckets) : Bool × RateBuckets :=
  let b0 := (bucketGet m ip).getD ⟨t, 0⟩
  let b1 := if t - b0.start > RATE_windowMs then ({ start := t, count := 0 } : Bucket) else b0
  let b2 : Bucket := ⟨b1.start, b1.count + 1⟩
  (b2.count ≤ RATE_max, bucketSet m ip b2)

/-- A sequence of `rateLimit` calls for one client, returning every verdict
and the final bucket map. -/
def rlRun : List Int → String → RateBuckets → List Bool × RateBuckets
  | [], _, m => ([], m)
  | t :: ts, ip, m =>
    let r := rateLimit t ip m
    let rest := rlRun ts ip r.2
    (r.1 :: rest.1, rest.2)

/-! ## Strings, locale, and the Prompt Builder (lines 74-174) -/

/-- `String.prototype.toLowerCase` (ASCII range; the gateway only compares
against ASCII prefixes). -/
def lowerStr (s : String) : String := String.mk (s.data.map Char.toLower)

/-- `.toLowerCase().startsWith('en')`. -/
def startsEn (s : String) : Bool :=
  match (lowerStr s).data with
  | 'e' :: 'n' :: _ => true
  | _ => false

/-- Line 75 of `buildPrompts`: the locale is `"en"` when
`meta?.lang || payload?.lang || 'ar'`, stringified and lower-cased, starts
with `"en"`; otherwise `"ar"`. -/
def resolveLang (payload meta : Json) : String :=
  if startsEn (jsToString (jsOr (getField meta "lang")
      (jsOr (getField payload "lang") (.str "ar")))) then "en" else "ar"

/-- A system/user prompt pair. -/
structure Prompts where
  system : String
  user : String
  deriving DecidableEq

/-- `buildPrompts` (lines 74-174): locale-specific prompt pairs for the four
known tasks, `none` for anything else. The `user` string is the
`JSON.stringify` of the constructed user object. -/
def buildPrompts (task : String) (payload meta : Json) : Option Prompts :=
  let lang := resolveLang payload meta
  if task = "panorama_json_to_report" then
    let findings := jsOr (getField payload "findings")
      (jsOr (getField payload "items") (.arr .nil))
    let summary := jsOr (getField payload "summary") (.obj .nil)
    let system := if lang = "ar" then
        "أنت مساعد أشعة أسنان محترف. اكتب تقرير أشعة بانوراما طبي منظم بناءً على نتائج ذكاء اصطناعي (قائمة Findings). لا تخترع بيانات غير موجودة. أخرج JSON فقط."
      else
        "You are a professional dental radiology assistant. Write a structured panoramic radiology report based on AI findings. Do not hallucinate. Output JSON only."
    let user := Json.obj (mkObj [
      ("instruction", .str (if lang = "ar" then
        "حوّل بيانات الـAI إلى تقرير طبي احترافي (Findings/Impression/Recommendations). استخدم لغة علمية واضحة. لو البيانات غير كافية، اذكر ذلك صراحة."
      else
        "Convert AI output into a professional report (Findings/Impression/Recommendations). If data is insufficient, state that explicitly.")),
      ("schema", Json.obj (mkObj [
        ("findings", .str "string (multi-line)"),
        ("impression", .str "string (multi-line)"),
        ("recommendations", .str "string (multi-line)")])),
      ("input", Json.obj (mkObj [
        ("findings", findings),
        ("summary", summary)]))])
    some ⟨system, jsonStringify user⟩
  else if task = "ceph_treatment_planner" then
    let ceph := jsOr (getField payload "ceph")
      (jsOr (getField payload "measurements") (jsOr payload (.obj .nil)))
    let system := if lang = "ar" then
        "أنت أخصائي تقويم أسنان. استنتج خطة علاج تقويمية بناءً على التحاليل القياسية. لا تذكر أدوية. لا تؤكد تشخيصات غير مدعومة. أخرج JSON فقط."
      else
        "You are an orthodontic specialist. Propose an orthodontic treatment plan from cephalometric analyses. Output JSON only."
    let user := Json.obj (mkObj [
      ("instruction", .str (if lang = "ar" then
        "اكتب خطة علاج تقويمية منظمة من مراحل، أهداف، خيارات أجهزة، Anchorage، مخاطر ومتابعة. التزم بالبيانات. لو ناقصة، اطلب ما يلزم."
      else
        "Write a structured orthodontic plan: objectives, phases, appliance options, anchorage, risks/consent, follow-up. Ask for missing critical data.")),
      ("schema", Json.obj (mkObj [
        ("diagnostic_summary", .str "string"),
        ("problem_list", .str "array of strings"),
        ("objectives", .str "array of strings"),
        ("plan_phases", .str "array of \x7bname, steps[]\x7d"),
        ("appliance_options", .str "array of strings"),
        ("anchorage", .str "string"),
        ("risks_and_consents", .str "array of strings"),
        ("follow_up", .str "array of strings")])),
      ("input", ceph)])
    some ⟨system, jsonStringify user⟩
  else if task = "voice_to_report" then
    let transcript := jsToString (jsOr (getField payload "transcript")
      (jsOr (getField payload "text") (.str "")))
    let template := jsToString (jsOr (getField payload "template") (.str ""))
    let system := if lang = "ar" then
        "أنت محرر تقارير أشعة. حوّل إملاء الطبيب إلى تقرير طبي منظم. لا تخترع نتائج. أخرج JSON فقط."
      else
        "You are a radiology report editor. Turn dictated text into a structured report. Output JSON only."
    let user := Json.obj (mkObj [
      ("instruction", .str (if lang = "ar" then
        "نظّف النص، صحح الأخطاء، واكتب تقريرًا احترافيًا. قسّم إلى Findings و Impression و Recommendations. حافظ على نفس المعنى."
      else
        "Polish the text and produce a professional report. Split into Findings/Impression/Recommendations.")),
      ("template", .str template),
      ("schema", Json.obj (mkObj [
        ("findings", .str "string"),
        ("impression", .str "string"),
        ("recommendations", .str "string")])),
      ("input", .str transcript)])
    some ⟨system, jsonStringify user⟩
  else if task = "ask_radiology" then
    let q := jsToString (jsOr (getField payload "question")
      (jsOr (getField payload "q") (.str "")))
    let system := if lang = "ar" then
        "أنت مساعد أشعة أسنان. أجب بشكل علمي، مختصر، وتجنب الهلوسة. إذا السؤال يحتاج معلومات إضافية اطلبها. أخرج JSON فقط."
      else
        "You are a dental radiology assistant. Answer scientifically and concisely. Ask for missing details. Output JSON only."
    let user := Json.obj (mkObj [
      ("instruction", .str (if lang = "ar" then
        "أجب عن السؤال. اذكر نقاط عملية للطبيب. إذا هناك حدود للـAI، اذكرها."
      else
        "Answer the question with practical points. Mention limits if relevant.")),
      ("schema", Json.obj (mkObj [
        ("answer", .str "string"),
        ("follow_up_questions", .str "array of strings")])),
      ("input", .str q)])
    some ⟨system, jsonStringify user⟩
  else none

/-! ## Events, environment, upstream client, handler (lines 176-346) -/

/-- The platform event: method, headers object (absent headers modelled as
`none`, which line 268 guards with `?.` but line 278 does not), body. -/
structure NfEvent where
  httpMethod : String
  headers : Option (List (String × String))
  body : Option String

def headerGet : List (String × String) → String → Option String
  | [], _ => none
  | (k, v) :: rest, key => if k = key then some v else headerGet rest key

/-- A header value when it is truthy (present and nonempty). -/
def headerTruthy (hs : List (String × String)) (key : String) : Option String :=
  match headerGet hs key with
  | some v => if v = "" then none else some v
  | none => none

/-- JS `||` over possibly-absent truthy strings. -/
def strOrElse (a b : Option String) : Option String :=
  match a with
  | some v => some v
  | none => b

/-- Line 268: `event.headers?.origin || event.headers?.Origin`. -/
def originOf (e : NfEvent) : Option String :=
  match e.headers with
  | none => none
  | some hs => strOrElse (headerTruthy hs "origin") (headerTruthy hs "Origin")

/-- `corsHeaders` (lines 41-50). -/
def corsHeaders (origin : Option String) : List (String × String) :=
  [("Access-Control-Allow-Origin", origin.getD "*"),
   ("Vary", "Origin"),
   ("Access-Control-Allow-Headers", "Content-Type, Authorization"),
   ("Access-Control-Allow-Methods", "POST, OPTIONS")]

/-- Line 278: the client identifier, first truthy of three headers, else
`"unknown"`. -/
def ipOf (hs : List (String × String)) : String :=
  (strOrElse (headerTruthy hs "x-nf-client-connection-ip")
    (strOrElse (headerTruthy hs "client-ip")
      (headerTruthy hs "x-forwarded-for"))).getD "unknown"

/-- The environment variables the gateway reads (`none` = unset). -/
structure Env where
  AI_PROVIDER : Option String := none
  OPENROUTER_API_KEY : Option String := none
  OPENROUTER_BASE_URL : Option String := none
  OPENAI_API_KEY : Option String := none
  OPENAI_BASE_URL : Option String := none
  MODEL_TEXT : Option String := none
  MODEL_TEXT_FALLBACK : Option String := none

/-- An env string when truthy (set and nonempty). -/
def envTruthy (v : Option String) : Option String :=
  match v with
  | some s => if s = "" then none else some s
  | none => none

/-- `process.env.X || 'default'`. -/
def envDefault (v : Option String) (d : String) : String := (envTruthy v).getD d

/-- A JS `Error`: only its message is observable in the gateway. -/
structure JsError where
  message : String
  deriving DecidableEq

/-- `String(e)` for an `Error` value. -/
def errToString (e : JsError) : String :=
  if e.message = "" then "Error" else "Error: " ++ e.message

/-- The oracle for one `fetchWithTimeout` call: the fetch either rejects
(network error, or the abort fired at the timeout) with an error message, or
resolves to a response with `ok` flag, status and body text. -/
inductive FetchOutcome where
  | netFail (msg : String)
  | httpResp (ok : Bool) (status : Nat) (text : String)
  deriving DecidableEq

/-- `callChatCompletion`'s successful result: the extracted message content
and usage metadata. -/
structure UpstreamOut where
  raw : Json
  usage : Json
  deriving DecidableEq

/-- Line 212/242: the most specific upstream error message available:
`(data && (data.error?.message || data.error || data.message)) ||
 `Upstream error: ${status}``, stringified by the `Error` constructor. -/
def upstreamErrMsg (data : Json) (status : Nat) : String :=
  jsToString (jsOr
    (if jsTruthy data then
      jsOr (getField (getField data "error") "message")
        (jsOr (getField data "error") (getField data "message"))
     else .null)
    (.str ("Upstream error: " ++ String.mk (printNat status))))

/-- `callChatCompletion` (lines 187-249). The base URL and the outgoing
request body are not observable in any claim, so only the provider
branching, key check, error normalization and content extraction are
modelled; the HTTP exchange itself is the `fetched` oracle value. -/
def callChatCompletion (env : Env) (provider model system user : String)
    (temperature : Rat) (fetched : FetchOutcome) : Except JsError UpstreamOut :=
  if provider = "openrouter" then
    match envTruthy env.OPENROUTER_API_KEY with
    | none => .error ⟨"Server missing OPENROUTER_API_KEY"⟩
    | some _ =>
      match fetched with
      | .netFail msg => .error ⟨msg⟩
      | .httpResp ok status text =>
        let data := safeJsonParse text
        if !ok then .error ⟨upstreamErrMsg data status⟩
        else .ok ⟨jsOr (getField (getField (jsIndex (getField data "choices") 0)
            "message") "content") (.str ""), getField data "usage"⟩
  else if provider = "openai" then
    match envTruthy env.OPENAI_API_KEY with
    | none => .error ⟨"Server missing OPENAI_API_KEY"⟩
    | some _ =>
      match fetched with
      | .netFail msg => .error ⟨msg⟩
      | .httpResp ok status text =>
        let data := safeJsonParse text
        if !ok then .error ⟨upstreamErrMsg data status⟩
        else .ok ⟨jsOr (getField (getField (jsIndex (getField data "choices") 0)
            "message") "content") (.str ""), getField data "usage"⟩
  else .error ⟨"Unknown AI_PROVIDER"⟩

/-- The `parsed` computation of `run` (lines 310-315): a truthy extraction
is returned as is; otherwise the raw text is clamped and wrapped. -/
def runParsed (raw : Json) : Json :=
  let parsed := extractJson raw
  if jsTruthy parsed then parsed
  else .obj (.cons "raw" (.str (clampString raw 50000)) .nil)

/-- `run`'s result (lines 308-316). -/
structure RunOut where
  parsed : Json
  usage : Json
  raw : Json
  deriving DecidableEq

/-- `run(modelName)` (lines 308-316): one upstream call, extraction with
raw-text fallback; a thrown upstream error propagates. -/
def runModel (env : Env) (provider model system user : String)
    (temperature : Rat) (fetched : FetchOutcome) : Except JsError RunOut :=
  match callChatCompletion env provider model system user temperature fetched with
  | .error e => .error e
  | .ok out => .ok ⟨runParsed out.raw, out.usage, out.raw⟩

/-- The defaulted temperature `0.2` (line 306). -/
def defaultTemp : Rat := ⟨1, 5, by decide, by norm_num⟩

/-- An integer JSON number as a JS number. -/
def ratOfInt (n : Int) : Rat := ⟨n, 1, one_ne_zero, Nat.coprime_one_right _⟩

/-- Line 306: `typeof payload.temperature === 'number' ? payload.temperature
: 0.2`. -/
def tempOfPayload (payload : Json) : Rat :=
  match getField payload "temperature" with
  | .num n => ratOfInt n
  | _ => defaultTemp

/-- One model call made by the handler: its parameters and its outcome
(instrumentation of the trace the claims are about). -/
structure CallRecord where
  provider : String
  model : String
  system : String
  user : String
  temperature : Rat
  outcome : Except JsError UpstreamOut

/-- An HTTP response of the handler. -/
structure Response where
  statusCode : Nat
  headers : List (String × String)
  body : String
  deriving DecidableEq

/-- Handler result: the response, the list of upstream model calls made, and
the bucket map after the request. -/
abbrev HandlerOut := Response × List CallRecord × RateBuckets

/-- A failure body `{ ok:false, error: msg }`. -/
def errBody (msg : String) : String :=
  jsonStringify (.obj (mkObj [("ok", .bool false), ("error", .str msg)]))

/-- The 200 body (lines 330-337); `model_used` is the handler's `model`
variable, which always holds the primary model name. -/
def successBody (task provider modelName : String) (parsed usage : Json) :
    String :=
  jsonStringify (.obj (mkObj [
    ("ok", .bool true),
    ("task", .str task),
    ("provider", .str provider),
    ("model_used", .str modelName),
    ("result", parsed),
    ("usage", jsOr usage .null)]))

/-- The 502 body (line 343). -/
def upstreamErrBody (err : JsError) : String :=
  jsonStringify (.obj (mkObj [("ok", .bool false),
    ("error", .str "AI upstream error"),
    ("details", .str (errToString err))]))

/-- Line 293: `(req.task || '').toString().trim()`. -/
def reqTask (req : Json) : String :=
  jsTrimStr (jsToString (jsOr (getField req "task") (.str "")))

/-- Line 294: `req.payload || {}`. -/
def reqPayload (req : Json) : Json := jsOr (getField req "payload") (.obj .nil)

/-- Line 295: `req.meta || {}`. -/
def reqMeta (req : Json) : Json := jsOr (getField req "meta") (.obj .nil)

/-- Line 302: `(process.env.AI_PROVIDER || 'openrouter').toLowerCase()`. -/
def providerOf (env : Env) : String :=
  lowerStr (envDefault env.AI_PROVIDER "openrouter")

/-- Line 303: the primary model name. -/
def primaryModel (env : Env) : String :=
  envDefault env.MODEL_TEXT "google/gemma-3-12b-it:free"

/-- Line 304: the fallback model name. -/
def fallbackModelOf (env : Env) : String :=
  envDefault env.MODEL_TEXT_FALLBACK "google/gemma-3-4b-it:free"

/-- The response headers of a request whose headers object is `hs`. -/
def postHeaders (hs : List (String × String)) : List (String × String) :=
  corsHeaders (strOrElse (headerTruthy hs "origin") (headerTruthy hs "Origin")) ++
    [("Content-Type", "application/json; charset=utf-8")]

/-- `exports.handler` (lines 267-346). `t` is the clock (`now()`), `buckets`
the warm-instance rate state, and `fetch0`/`fetch1` the oracle outcomes of
the primary and fallback upstream calls. `Except.error` models a JS
exception escaping the handler: the only such path is the unguarded header
access on line 278 when `event.headers` is absent. -/
def handler (e : NfEvent) (t : Int) (buckets : RateBuckets) (env : Env)
    (fetch0 fetch1 : FetchOutcome) : Except JsError HandlerOut :=
  let headers := corsHeaders (originOf e) ++
    [("Content-Type", "application/json; charset=utf-8")]
  if e.httpMethod = "OPTIONS" then
    .ok (⟨204, headers, ""⟩, [], buckets)
  else if e.httpMethod ≠ "POST" then
    .ok (⟨405, headers, errBody "Method Not Allowed"⟩, [], buckets)
  else
    match e.headers with
    | none => .error ⟨"TypeError: Cannot read properties of undefined"⟩
    | some hs =>
      let rl := rateLimit t (ipOf hs) buckets
      if !rl.1 then
        .ok (⟨429, headers, errBody "Rate limit exceeded"⟩, [], rl.2)
      else
        let rawBody := e.body.getD ""
        if rawBody.length > MAX_BODY_CHARS then
          .ok (⟨413, headers, errBody "Payload too large"⟩, [], rl.2)
        else
          let req := safeJsonParse rawBody
          if !jsTruthy req then
            .ok (⟨400, headers, errBody "Invalid JSON"⟩, [], rl.2)
          else
            let task := reqTask req
            let payload := reqPayload req
            let meta := reqMeta req
            match buildPrompts task payload meta with
            | none => .ok (⟨400, headers, errBody "Unknown task"⟩, [], rl.2)
            | some pr =>
              let provider := providerOf env
              let model := primaryModel env
              let fallbackModel := fallbackModelOf env
              let temperature := tempOfPayload payload
              let rec0 : CallRecord := ⟨provider, model, pr.system, pr.user,
                temperature,
                callChatCompletion env provider model pr.system pr.user
                  temperature fetch0⟩
              match runModel env provider model pr.system pr.user temperature
                  fetch0 with
              | .ok r =>
                .ok (⟨200, headers,
                  successBody task provider model r.parsed r.usage⟩, [rec0], rl.2)
              | .error _ =>
                let rec1 : CallRecord := ⟨provider, fallbackModel, pr.system,
                  pr.user, temperature,
                  callChatCompletion env provider fallbackModel pr.system
                    pr.user temperature fetch1⟩
                match runModel env provider fallbackModel pr.system pr.user
                    temperature fetch1 with
                | .ok r =>
                  .ok (⟨200, headers,
                    successBody task provider model r.parsed r.usage⟩,
                    [rec0, rec1], rl.2)
                | .error err =>
                  .ok (⟨502, headers, upstreamErrBody err⟩, [rec0, rec1], rl.2)

/-- The response of a handler result, when one was returned. -/
def hResp : Except JsError HandlerOut → Option Response
  | .ok (r, _, _) => some r
  | .error _ => none

def hStatus (x : Except JsError HandlerOut) : Option Nat :=
  (hResp x).map Response.statusCode

def hBody (x : Except JsError HandlerOut) : Option String :=
  (hResp x).map Response.body

/-- The model calls a handler run made. -/
def hTrace : Except JsError HandlerOut → List CallRecord
  | .ok (_, tr, _) => tr
  | .error _ => []

/-- A named field of a JSON response body. -/
def bodyField (b : Option String) (key : String) : Option Json :=
  b.map (fun s => getField (safeJsonParse s) key)

/-! ## Handler branch structure -/

/-- One-step unfolding of the handler for a POST event with a headers
object: the whole POST pipeline, definitional. -/
theorem handler_post_step (hs : List (String × String)) (body : Option String)
    (t : Int) (m : RateBuckets) (env : Env) (f0 f1 : FetchOutcome) :
    handler ⟨"POST", some hs, body⟩ t m env f0 f1 =
      (if !(rateLimit t (ipOf hs) m).1 then
        .ok (⟨429, postHeaders hs, errBody "Rate limit exceeded"⟩, [],
          (rateLimit t (ipOf hs) m).2)
      else if (body.getD "").length > MAX_BODY_CHARS then
        .ok (⟨413, postHeaders hs, errBody "Payload too large"⟩, [],
          (rateLimit t (ipOf hs) m).2)
      else if !jsTruthy (safeJsonParse (body.getD "")) then
        .ok (⟨400, postHeaders hs, errBody "Invalid JSON"⟩, [],
          (rateLimit t (ipOf hs) m).2)
      else
        match buildPrompts (reqTask (safeJsonParse (body.getD "")))
            (reqPayload (safeJsonParse (body.getD "")))
            (reqMeta (safeJsonParse (body.getD ""))) with
        | none => .ok (⟨400, postHeaders hs, errBody "Unknown task"⟩, [],
            (rateLimit t (ipOf hs) m).2)
        | some pr =>
          match runModel env (providerOf env) (primaryModel env) pr.system
              pr.user (tempOfPayload (reqPayload (safeJsonParse (body.getD ""))))
              f0 with
          | .ok r =>
            .ok (⟨200, postHeaders hs,
              successBody (reqTask (safeJsonParse (body.getD "")))
                (providerOf env) (primaryModel env) r.parsed r.usage⟩,
              [⟨providerOf env, primaryModel env, pr.system, pr.user,
                tempOfPayload (reqPayload (safeJsonParse (body.getD ""))),
                callChatCompletion env (providerOf env) (primaryModel env)
                  pr.system pr.user
                  (tempOfPayload (reqPayload (safeJsonParse (body.getD ""))))
                  f0⟩],
              (rateLimit t (ipOf hs) m).2)
          | .error _ =>
            match runModel env (providerOf env) (fallbackModelOf env) pr.system
                pr.user
                (tempOfPayload (reqPayload (safeJsonParse (body.getD "")))) f1 with
            | .ok r =>
              .ok (⟨200, postHeaders hs,
                successBody (reqTask (safeJsonParse (body.getD "")))
                  (providerOf env) (primaryModel env) r.parsed r.usage⟩,
                [⟨providerOf env, primaryModel env, pr.system, pr.user,
                  tempOfPayload (reqPayload (safeJsonParse (body.getD ""))),
                  callChatCompletion env (providerOf env) (primaryModel env)
                    pr.system pr.user
                    (tempOfPayload (reqPayload (safeJsonParse (body.getD ""))))
                    f0⟩,
                 ⟨providerOf env, fallbackModelOf env, pr.system, pr.user,
                  tempOfPayload (reqPayload (safeJsonParse (body.getD ""))),
                  callChatCompletion env (providerOf env) (fallbackModelOf env)
                    pr.system pr.user
                    (tempOfPayload (reqPayload (safeJsonParse (body.getD ""))))
                    f1⟩],
                (rateLimit t (ipOf hs) m).2)
            | .error err =>
              .ok (⟨502, postHeaders hs, upstreamErrBody err⟩,
                [⟨providerOf env, primaryModel env, pr.system, pr.user,
                  tempOfPayload (reqPayload (safeJsonParse (body.getD ""))),
                  callChatCompletion env (providerOf env) (primaryModel env)
                    pr.system pr.user
                    (tempOfPayload (reqPayload (safeJsonParse (body.getD ""))))
                    f0⟩,
                 ⟨providerOf env, fallbackModelOf env, pr.system, pr.user,
                  tempOfPayload (reqPayload (safeJsonParse (body.getD ""))),
                  callChatCompletion env (providerOf env) (fallbackModelOf env)
                    pr.system pr.user
                    (tempOfPayload (reqPayload (safeJsonParse (body.getD ""))))
                    f1⟩],
                (rateLimit t (ipOf hs) m).2)) := rfl

/-- Is a JSON value an object? -/
def isObjJson : Json → Bool
  | .obj _ => true
  | _ => false

theorem runModel_of_call_ok {env : Env} {provider model system user : String}
    {temperature : Rat} {fetched : FetchOutcome} {u : UpstreamOut}
    (h : callChatCompletion env provider model system user temperature fetched =
      .ok u) :
    runModel env provider model system user temperature fetched =
      .ok ⟨runParsed u.raw, u.usage, u.raw⟩ := by
  rw [runModel, h]

theorem runModel_of_call_err {env : Env} {provider model system user : String}
    {temperature : Rat} {fetched : FetchOutcome} {err : JsError}
    (h : callChatCompletion env provider model system user temperature fetched =
      .error err) :
    runModel env provider model system user temperature fetched = .error err := by
  rw [runModel, h]

theorem runParsed_truthy (raw : Json) : jsTruthy (runParsed raw) = true := by
  rw [runParsed]
  by_cases h : jsTruthy (extractJson raw) = true
  · simp only [h, if_true]
  · simp only [Bool.not_eq_true] at h
    simp only [h, Bool.false_eq_true, if_false]
    rfl

theorem runParsed_of_miss {raw : Json}
    (h : jsTruthy (extractJson raw) = false) :
    runParsed raw = .obj (.cons "raw" (.str (clampString raw 50000)) .nil) := by
  rw [runParsed]
  simp only [h, Bool.false_eq_true, if_false]

theorem runParsed_of_hit {raw : Json}
    (h : jsTruthy (extractJson raw) = true) :
    runParsed raw = extractJson raw := by
  rw [runParsed]
  simp only [h, if_true]

/-- A failure body: a JSON object carrying `ok:false` and an `error`
string. -/
def failureShape (b : String) : Prop :=
  ∃ fields, safeJsonParse b = .obj fields ∧
    objLookup fields "ok" = some (.bool false) ∧
    ∃ msg, objLookup fields "error" = some (.str msg)

theorem errBody_failureShape (msg : String) : failureShape (errBody msg) :=
  ⟨_, safeJsonParse_stringify _, rfl, msg, rfl⟩

theorem upstreamErrBody_failureShape (err : JsError) :
    failureShape (upstreamErrBody err) :=
  ⟨_, safeJsonParse_stringify _, rfl, "AI upstream error", rfl⟩

/-- The `result` member of a parsed 200 body is the parsed value. -/
theorem successBody_result (task provider modelName : String)
    (parsed usage : Json) :
    getField (safeJsonParse (successBody task provider modelName parsed usage))
      "result" = parsed := by
  rw [successBody, safeJsonParse_stringify]
  rfl

/-- The `model_used` member of a parsed 200 body. -/
theorem successBody_model_used (task provider modelName : String)
    (parsed usage : Json) :
    getField (safeJsonParse (successBody task provider modelName parsed usage))
      "model_used" = .str modelName := by
  rw [successBody, safeJsonParse_stringify]
  rfl

/-! ## Concrete fixtures used by witnesses and counterexamples -/

def sampleEnv : Env := {
  AI_PROVIDER := some "openrouter",
  OPENROUTER_API_KEY := some "k",
  MODEL_TEXT := some "model-a",
  MODEL_TEXT_FALLBACK := some "model-b"
}

def askBody : String :=
  "\x7b\"task\":\"ask_radiology\",\"payload\":\x7b\"question\":\"q\"\x7d\x7d"

def askEvent : NfEvent :=
  ⟨"POST", some [("origin", "https://app.example")], some askBody⟩

/-- An upstream 200 whose content is the JSON object `{"answer":"ok"}`. -/
def okChoicesText : String :=
  "\x7b\"choices\":[\x7b\"message\":\x7b\"content\":\"\x7b\\\"answer\\\":\\\"ok\\\"\x7d\"\x7d\x7d]\x7d"

/-- An upstream 200 whose content is the bare number `42`. -/
def numChoicesText : String :=
  "\x7b\"choices\":[\x7b\"message\":\x7b\"content\":\"42\"\x7d\x7d]\x7d"

/-! ## Claims C5, C7, C3, C6, C10 -/

theorem bucketGet_set (m : RateBuckets) (ip : String) (b : Bucket) :
    bucketGet (bucketSet m ip b) ip = some b := by
  induction m with
  | nil => simp [bucketSet, bucketGet]
  | cons hd tl ih =>
    obtain ⟨k, b0⟩ := hd
    by_cases hk : k = ip
    · simp [bucketSet, bucketGet, hk]
    · simp [bucketSet, bucketGet, hk, ih]

/-- The expected verdicts of `n` further calls when the bucket already
counts `k` within the current window. -/
def rlExpect : Nat → Nat → List Bool
  | _, 0 => []
  | k, n + 1 => decide (k + 1 ≤ RATE_max) :: rlExpect (k + 1) n

theorem rlRun_invariant (ip : String) (t0 : Int) :
    ∀ (ts : List Int) (m : RateBuckets) (k : Nat),
      bucketGet m ip = some ⟨t0, k⟩ →
      (∀ u ∈ ts, u - t0 ≤ RATE_windowMs) →
      (rlRun ts ip m).1 = rlExpect k ts.length := by
  intro ts
  induction ts with
  | nil => intro m k _ _; rfl
  | cons u us ih =>
    intro m k hget hin
    have hu : u - t0 ≤ RATE_windowMs := hin u (List.mem_cons_self ..)
    have hstep : rateLimit u ip m =
        (decide (k + 1 ≤ RATE_max), bucketSet m ip ⟨t0, k + 1⟩) := by
      rw [rateLimit]
      simp only [hget, Option.getD_some]
      rw [if_neg (by omega)]
    rw [rlRun]
    simp only [hstep]
    rw [ih (bucketSet m ip ⟨t0, k + 1⟩) (k + 1) (bucketGet_set ..)
      (fun w hw => hin w (List.mem_cons_of_mem _ hw))]
    rfl

theorem rlExpect_eq_range : ∀ (n k : Nat),
    rlExpect k n = (List.range n).map (fun i => decide (k + i + 1 ≤ RATE_max)) := by
  intro n
  induction n with
  | zero => intro k; rfl
  | succ m ih =>
    intro k
    rw [rlExpect, ih (k + 1), List.range_succ_eq_map, List.map_cons,
      List.map_map]
    congr 1
    apply List.map_congr_left
    intro a _
    simp only [Function.comp_apply, decide_eq_decide]
    omega

/-- C5: for a fresh client, every call within the first call's window is
allowed while the post-increment count stays within `RATE_max = 40` (so the
first 40 verdicts of 41 calls are `true` and the 41st is `false`), and a
call whose distance from the bucket's window start exceeds
`RATE_windowMs = 60000` resets the bucket to `(now, count 1)` and is
allowed. -/
theorem C5_rate_limiter :
    (∀ (ip : String) (t0 : Int) (ts : List Int) (m : RateBuckets),
      bucketGet m ip = none →
      (∀ u ∈ ts, u - t0 ≤ RATE_windowMs) →
      (rlRun (t0 :: ts) ip m).1 =
        (List.range (ts.length + 1)).map (fun i => decide (i + 1 ≤ RATE_max))) ∧
    (∀ (t : Int) (ip : String) (m : RateBuckets) (b : Bucket),
      bucketGet m ip = some b → t - b.start > RATE_windowMs →
      rateLimit t ip m = (true, bucketSet m ip ⟨t, 1⟩)) := by
  constructor
  · intro ip t0 ts m hnone hin
    have hfirst : rateLimit t0 ip m = (true, bucketSet m ip ⟨t0, 1⟩) := by
      rw [rateLimit]
      simp only [hnone, Option.getD_none]
      rw [if_neg (by unfold RATE_windowMs; omega)]
      rfl
    rw [rlRun]
    simp only [hfirst]
    rw [rlRun_invariant ip t0 ts (bucketSet m ip ⟨t0, 1⟩) 1 (bucketGet_set ..)
      hin]
    have hhead : (true :: rlExpect 1 ts.length : List Bool) =
        rlExpect 0 (ts.length + 1) := rfl
    rw [hhead, rlExpect_eq_range]
    apply List.map_congr_left
    intro i _
    simp only [decide_eq_decide]
    omega
  · intro t ip m b hget hgt
    rw [rateLimit]
    simp only [hget, Option.getD_some]
    rw [if_pos hgt]
    rfl

/-- Witness for C5 at a fresh client: 41 calls inside one minute, then a
reset after the window. -/
theorem C5_rate_limiter_witness :
    (rlRun (0 :: List.replicate 40 5) "c" []).1 =
      (List.range 41).map (fun i => decide (i + 1 ≤ RATE_max)) ∧
    rateLimit 70000 "c" [("c", ⟨0, 40⟩)] = (true, [("c", ⟨70000, 1⟩)]) := by
  constructor
  · have h := C5_rate_limiter.1 "c" 0 (List.replicate 40 5) [] rfl
      (by intro u hu; rw [List.eq_of_mem_replicate hu]; decide)
    simpa using h
  · exact C5_rate_limiter.2 70000 "c" [("c", ⟨0, 40⟩)] ⟨0, 40⟩ rfl (by decide)

/-- C7: the Prompt Builder returns a prompt pair exactly for the four known
task names (and, being a total pure function of its arguments, it has no
side effects and cannot throw). -/
theorem C7_prompt_builder_tasks (task : String) (payload meta : Json) :
    (buildPrompts task payload meta).isSome = true ↔
      task = "panorama_json_to_report" ∨ task = "ceph_treatment_planner" ∨
      task = "voice_to_report" ∨ task = "ask_radiology" := by
  simp only [buildPrompts]
  split_ifs with h1 h2 h3 h4 <;> simp_all

/-- Witness for C7: a known task yields a pair. -/
theorem C7_prompt_builder_witness :
    (buildPrompts "ask_radiology" (.obj .nil) (.obj .nil)).isSome = true :=
  (C7_prompt_builder_tasks "ask_radiology" (.obj .nil) (.obj .nil)).mpr
    (Or.inr (Or.inr (Or.inr rfl)))

/-- C3 counterexample: with `meta.lang = "ar"` and `payload.lang = "en"`,
`payload.lang` starts with `"en"`, yet the code resolves Arabic (the claim,
read as a plain disjunction, demands English here), and `buildPrompts`
accordingly selects the Arabic system prompt. -/
theorem C3_meta_precedence_counterexample :
    startsEn (jsToString (getField
      (Json.obj (.cons "lang" (.str "en") .nil)) "lang")) = true ∧
    resolveLang (Json.obj (.cons "lang" (.str "en") .nil))
      (Json.obj (.cons "lang" (.str "ar") .nil)) = "ar" ∧
    (buildPrompts "ask_radiology" (Json.obj (.cons "lang" (.str "en") .nil))
      (Json.obj (.cons "lang" (.str "ar") .nil))).map Prompts.system =
      some "أنت مساعد أشعة أسنان. أجب بشكل علمي، مختصر، وتجنب الهلوسة. إذا السؤال يحتاج معلومات إضافية اطلبها. أخرج JSON فقط." := by
  refine ⟨by decide, by decide, by decide⟩

/-- C3 (amended): the locale source is `meta.lang` when truthy, else
`payload.lang` when truthy, else the literal `"ar"`; English is selected
exactly when that one source, stringified and lower-cased, starts with
`"en"` (`startsEn`), and otherwise Arabic is selected. -/
theorem C3_locale_amended (payload meta : Json) :
    (jsTruthy (getField meta "lang") = true →
      (resolveLang payload meta = "en" ↔
        startsEn (jsToString (getField meta "lang")) = true)) ∧
    (jsTruthy (getField meta "lang") = false →
      jsTruthy (getField payload "lang") = true →
      (resolveLang payload meta = "en" ↔
        startsEn (jsToString (getField payload "lang")) = true)) ∧
    (jsTruthy (getField meta "lang") = false →
      jsTruthy (getField payload "lang") = false →
      resolveLang payload meta = "ar") := by
  refine ⟨?_, ?_, ?_⟩
  · intro hm
    rw [resolveLang, show jsOr (getField meta "lang")
        (jsOr (getField payload "lang") (.str "ar")) = getField meta "lang" from
      by rw [jsOr, if_pos hm]]
    by_cases hse : startsEn (jsToString (getField meta "lang")) = true
    · rw [if_pos hse]; simp [hse]
    · rw [if_neg hse]; simp [hse]
  · intro hm hp
    rw [resolveLang, show jsOr (getField meta "lang")
        (jsOr (getField payload "lang") (.str "ar")) = getField payload "lang"
      from by rw [jsOr, if_neg (by simp [hm]), jsOr, if_pos hp]]
    by_cases hse : startsEn (jsToString (getField payload "lang")) = true
    · rw [if_pos hse]; simp [hse]
    · rw [if_neg hse]; simp [hse]
  · intro hm hp
    rw [resolveLang, show jsOr (getField meta "lang")
        (jsOr (getField payload "lang") (.str "ar")) = .str "ar" from
      by rw [jsOr, if_neg (by simp [hm]), jsOr, if_neg (by simp [hp])]]
    rw [if_neg (by decide)]

/-- Witness for C3 (amended): a truthy `meta.lang = "EN-us"` selects
English. -/
theorem C3_locale_witness :
    resolveLang (.obj .nil) (Json.obj (.cons "lang" (.str "EN-us") .nil)) =
      "en" :=
  ((C3_locale_amended (.obj .nil)
    (Json.obj (.cons "lang" (.str "EN-us") .nil))).1 (by decide)).mpr (by decide)

/-- C6: the JSON Extractor round-trips every stringified object of the
model, recovers an object embedded in prose, and returns `null` when
nothing recoverable is present. -/
theorem C6_extract_round_trip :
    (∀ fs : JsonObj, extractJson (.str (jsonStringify (.obj fs))) = .obj fs) ∧
    extractJson (.str "Here is the result: \x7b\"a\":1\x7d Thanks") =
      .obj (.cons "a" (.num 1) .nil) ∧
    extractJson (.str "not json at all") = .null :=
  ⟨extractJson_stringify_obj, by decide, by decide⟩

theorem jsOr_str_empty (s : String) : jsToString (jsOr (.str s) (.str "")) = s := by
  by_cases h : s = ""
  · subst h; rfl
  · rw [jsOr, if_pos (by simp [jsTruthy, h])]; rfl

/-- C10: an input that parses as valid JSON to a falsy value, and whose
greedy brace block (if any) also parses falsy, is treated as an extraction
miss: `extractJson` returns `null`. -/
theorem C10_falsy_json_extraction (s : String) (v : Json)
    (hparse : parseJsonList (trimList s.data) = some v)
    (hfalsy : jsTruthy v = false)
    (hblock : ∀ bm, jsonBlockMatch (trimList s.data) = some bm →
      jsTruthy (safeJsonParse (String.mk bm)) = false) :
    extractJson (.str s) = .null := by
  rw [extractJson]
  simp only [jsOr_str_empty]
  by_cases hemp : (trimList s.data).isEmpty = true
  · simp only [hemp, if_true]
  · simp only [hemp, Bool.false_eq_true, if_false]
    have hd : safeJsonParse (String.mk (trimList s.data)) = v := by
      rw [safeJsonParse, show jsonParseOpt (String.mk (trimList s.data)) =
        parseJsonList (trimList s.data) from rfl, hparse]
      rfl
    rw [hd]
    simp only [hfalsy, Bool.false_eq_true, if_false]
    rcases hbm : jsonBlockMatch (trimList s.data) with _ | bm
    · simp only [hbm]
    · simp only [hbm]
      rw [hblock bm hbm]
      simp

/-- Witness for C10 at the literal input `"null"`. -/
theorem C10_falsy_json_witness : extractJson (.str "null") = .null := by
  have hb : jsonBlockMatch (trimList ("null").data) = none := by decide
  exact C10_falsy_json_extraction "null" Json.null (by decide) (by decide)
    (fun bm hbm => by rw [hb] at hbm; exact Option.noConfusion hbm)

/-! ## Claim C9 -/

/-- C9: on a POST request that passes the rate limiter, a raw body longer
than `MAX_BODY_CHARS = 250000` characters is answered 413 — for every body,
parseable or not, so no parse is consulted — and a body within the cap that
does not parse as JSON is answered 400. -/
theorem C9_body_cap (e : NfEvent) (t : Int) (m : RateBuckets) (env : Env)
    (f0 f1 : FetchOutcome) (hs : List (String × String))
    (hmethod : e.httpMethod = "POST")
    (hheaders : e.headers = some hs)
    (hrate : (rateLimit t (ipOf hs) m).1 = true) :
    ((e.body.getD "").length > MAX_BODY_CHARS →
      hStatus (handler e t m env f0 f1) = some 413 ∧
      hBody (handler e t m env f0 f1) = some (errBody "Payload too large")) ∧
    ((e.body.getD "").length ≤ MAX_BODY_CHARS →
      jsonParseOpt (e.body.getD "") = none →
      hStatus (handler e t m env f0 f1) = some 400 ∧
      hBody (handler e t m env f0 f1) = some (errBody "Invalid JSON")) := by
  obtain ⟨method, hdrs, body⟩ := e
  have hm : method = "POST" := hmethod
  have hh : hdrs = some hs := hheaders
  subst hm hh
  constructor
  · intro hbig
    rw [handler_post_step]
    simp only [hrate, Bool.not_true, Bool.false_eq_true, if_false]
    rw [if_pos hbig]
    exact ⟨rfl, rfl⟩
  · intro hsmall hbad
    have hsmall2 : (body.getD "").length ≤ MAX_BODY_CHARS := hsmall
    have hbad2 : jsonParseOpt (body.getD "") = none := hbad
    rw [handler_post_step]
    simp only [hrate, Bool.not_true, Bool.false_eq_true, if_false]
    rw [if_neg (by omega)]
    have hfalse : jsTruthy (safeJsonParse (body.getD "")) = false := by
      rw [safeJsonParse, hbad2]
      rfl
    simp only [hfalse, Bool.not_false, if_true]
    exact ⟨rfl, rfl⟩

def bigBody : String := String.mk (List.replicate 250001 'x')

/-- Witness for C9: an oversized body gets 413; a malformed one gets 400. -/
theorem C9_body_cap_witness :
    hStatus (handler ⟨"POST", some [], some bigBody⟩ 0 [] {} (.netFail "a")
      (.netFail "b")) = some 413 ∧
    hStatus (handler ⟨"POST", some [], some "not json"⟩ 0 [] {} (.netFail "a")
      (.netFail "b")) = some 400 := by
  constructor
  · refine ((C9_body_cap _ 0 [] {} _ _ [] rfl rfl (by decide)).1 ?_).1
    have hlen : bigBody.length = 250001 := by
      rw [bigBody,
        show (String.mk (List.replicate 250001 'x')).length =
          (List.replicate 250001 'x').length from rfl]
      simp only [List.length_replicate]
    show ((some bigBody).getD "").length > MAX_BODY_CHARS
    rw [Option.getD_some, hlen]
    decide
  · exact ((C9_body_cap _ 0 [] {} _ _ [] rfl rfl (by decide)).2
      (by decide) (by decide)).1

/-! ## Claim C2 -/

/-- C2 counterexample: a POST event whose `headers` field is absent makes
line 278 (`event.headers['x-nf-client-connection-ip']`, no optional
chaining) throw, so an exception does escape the handler boundary. -/
theorem C2_headers_undefined_counterexample :
    handler ⟨"POST", none, some "\x7b\x7d"⟩ 0 [] {} (.netFail "a")
      (.netFail "b") =
      .error ⟨"TypeError: Cannot read properties of undefined"⟩ := rfl

/-- C2 (amended): for every inbound event that carries a headers object the
handler returns a response, and every failure response (status other than
200 and 204) has a JSON body with `ok:false` and an `error` string built by
stringification, never a raw stack trace. -/
theorem C2_returns_response_amended (e : NfEvent) (t : Int) (m : RateBuckets)
    (env : Env) (f0 f1 : FetchOutcome) (hs : List (String × String))
    (hheaders : e.headers = some hs) :
    ∃ res tr m2, handler e t m env f0 f1 = .ok (res, tr, m2) ∧
      (res.statusCode ≠ 200 → res.statusCode ≠ 204 → failureShape res.body) := by
  obtain ⟨method, hdrs, body⟩ := e
  have hh : hdrs = some hs := hheaders
  subst hh
  by_cases hm1 : method = "OPTIONS"
  · subst hm1
    exact ⟨_, _, _, rfl, fun _ h204 => absurd rfl h204⟩
  by_cases hm2 : method = "POST"
  · subst hm2
    have heq := handler_post_step hs body t m env f0 f1
    cases hrl : (rateLimit t (ipOf hs) m).1 with
    | false =>
      simp only [hrl, Bool.not_false, if_true] at heq
      exact ⟨_, _, _, heq, fun _ _ => errBody_failureShape _⟩
    | true =>
      simp only [hrl, Bool.not_true, Bool.false_eq_true, if_false] at heq
      by_cases hbig : (body.getD "").length > MAX_BODY_CHARS
      · rw [if_pos hbig] at heq
        exact ⟨_, _, _, heq, fun _ _ => errBody_failureShape _⟩
      · rw [if_neg hbig] at heq
        by_cases hjs : jsTruthy (safeJsonParse (body.getD "")) = true
        · simp only [hjs, Bool.not_true, Bool.false_eq_true, if_false] at heq
          rcases hbp : buildPrompts (reqTask (safeJsonParse (body.getD "")))
              (reqPayload (safeJsonParse (body.getD "")))
              (reqMeta (safeJsonParse (body.getD ""))) with _ | pr
          · simp only [hbp] at heq
            exact ⟨_, _, _, heq, fun _ _ => errBody_failureShape _⟩
          · simp only [hbp] at heq
            rcases hr0 : runModel env (providerOf env) (primaryModel env)
                pr.system pr.user
                (tempOfPayload (reqPayload (safeJsonParse (body.getD "")))) f0
              with ⟨err0⟩ | ⟨r0⟩
            · simp only [hr0] at heq
              rcases hr1 : runModel env (providerOf env) (fallbackModelOf env)
                  pr.system pr.user
                  (tempOfPayload (reqPayload (safeJsonParse (body.getD "")))) f1
                with ⟨err1⟩ | ⟨r1⟩
              · simp only [hr1] at heq
                exact ⟨_, _, _, heq, fun _ _ => upstreamErrBody_failureShape _⟩
              · simp only [hr1] at heq
                exact ⟨_, _, _, heq, fun h200 _ => absurd rfl h200⟩
            · simp only [hr0] at heq
              exact ⟨_, _, _, heq, fun h200 _ => absurd rfl h200⟩
        · simp only [Bool.not_eq_true] at hjs
          simp only [hjs, Bool.not_false, if_true] at heq
          exact ⟨_, _, _, heq, fun _ _ => errBody_failureShape _⟩
  · have heq : handler ⟨method, some hs, body⟩ t m env f0 f1 =
        .ok (⟨405, corsHeaders (originOf ⟨method, some hs, body⟩) ++
          [("Content-Type", "application/json; charset=utf-8")],
          errBody "Method Not Allowed"⟩, [], m) := by
      simp only [handler]
      rw [if_neg hm1, if_pos hm2]
    exact ⟨_, _, _, heq, fun _ _ => errBody_failureShape _⟩

/-- Witness for C2 (amended) at a concrete non-POST event. -/
theorem C2_amended_witness :
    ∃ res tr m2, handler ⟨"GET", some [], none⟩ 0 [] {} (.netFail "a")
      (.netFail "b") = .ok (res, tr, m2) ∧
      (res.statusCode ≠ 200 → res.statusCode ≠ 204 → failureShape res.body) :=
  C2_returns_response_amended _ 0 [] {} _ _ [] rfl

/-! ## Claim C4 -/

/-- C4: every non-exceptional handler run makes at most two model calls; a
one-call trace is a successful primary call answered 200; a two-call trace
has a failed primary call followed by a fallback call with the same
provider, system prompt, user prompt and temperature and the fallback model
name, answered 200 if the fallback succeeded and 502 carrying the
stringified upstream error if it also failed. -/
theorem C4_fallback_policy (e : NfEvent) (t : Int) (m : RateBuckets)
    (env : Env) (f0 f1 : FetchOutcome) (res : Response)
    (tr : List CallRecord) (m2 : RateBuckets)
    (h : handler e t m env f0 f1 = .ok (res, tr, m2)) :
    tr.length ≤ 2 ∧
    (∀ c0, tr = [c0] →
      c0.model = primaryModel env ∧ (∃ u, c0.outcome = .ok u) ∧
      res.statusCode = 200) ∧
    (∀ c0 c1, tr = [c0, c1] →
      (∃ err, c0.outcome = .error err) ∧
      c0.model = primaryModel env ∧ c1.model = fallbackModelOf env ∧
      c1.provider = c0.provider ∧ c1.system = c0.system ∧
      c1.user = c0.user ∧ c1.temperature = c0.temperature ∧
      ((∃ u, c1.outcome = .ok u) → res.statusCode = 200) ∧
      (∀ err, c1.outcome = .error err → res.statusCode = 502 ∧
        res.body = upstreamErrBody err)) := by
  obtain ⟨method, hdrs, body⟩ := e
  by_cases hm1 : method = "OPTIONS"
  · subst hm1
    have heq : handler ⟨"OPTIONS", hdrs, body⟩ t m env f0 f1 =
        .ok (⟨204, corsHeaders (originOf ⟨"OPTIONS", hdrs, body⟩) ++
          [("Content-Type", "application/json; charset=utf-8")], ""⟩, [],
          m) := rfl
    rw [heq] at h
    simp only [Except.ok.injEq, Prod.mk.injEq] at h
    obtain ⟨rfl, rfl, rfl⟩ := h
    exact ⟨by simp, fun c0 hc => absurd hc (by simp),
      fun c0 c1 hc => absurd hc (by simp)⟩
  by_cases hm2 : method = "POST"
  · subst hm2
    rcases hdrs with _ | hs
    · rw [show handler ⟨"POST", none, body⟩ t m env f0 f1 =
        .error ⟨"TypeError: Cannot read properties of undefined"⟩ from rfl] at h
      exact absurd h (by simp)
    have heq := handler_post_step hs body t m env f0 f1
    rw [heq] at h
    clear heq
    cases hrl : (rateLimit t (ipOf hs) m).1 with
    | false =>
      simp only [hrl, Bool.not_false, if_true, Except.ok.injEq,
        Prod.mk.injEq] at h
      obtain ⟨rfl, rfl, rfl⟩ := h
      exact ⟨by simp, fun c0 hc => absurd hc (by simp),
        fun c0 c1 hc => absurd hc (by simp)⟩
    | true =>
      simp only [hrl, Bool.not_true, Bool.false_eq_true, if_false] at h
      by_cases hbig : (body.getD "").length > MAX_BODY_CHARS
      · rw [if_pos hbig] at h
        simp only [Except.ok.injEq, Prod.mk.injEq] at h
        obtain ⟨rfl, rfl, rfl⟩ := h
        exact ⟨by simp, fun c0 hc => absurd hc (by simp),
          fun c0 c1 hc => absurd hc (by simp)⟩
      · rw [if_neg hbig] at h
        by_cases hjs : jsTruthy (safeJsonParse (body.getD "")) = true
        · simp only [hjs, Bool.not_true, Bool.false_eq_true, if_false] at h
          rcases hbp : buildPrompts (reqTask (safeJsonParse (body.getD "")))
              (reqPayload (safeJsonParse (body.getD "")))
              (reqMeta (safeJsonParse (body.getD ""))) with _ | pr
          · simp only [hbp, Except.ok.injEq, Prod.mk.injEq] at h
            obtain ⟨rfl, rfl, rfl⟩ := h
            exact ⟨by simp, fun c0 hc => absurd hc (by simp),
              fun c0 c1 hc => absurd hc (by simp)⟩
          · simp only [hbp] at h
            rcases hr0 : runModel env (providerOf env) (primaryModel env)
                pr.system pr.user
                (tempOfPayload (reqPayload (safeJsonParse (body.getD ""))))
                f0 with ⟨err0⟩ | ⟨r0⟩
            · simp only [hr0] at h
              rcases hr1 : runModel env (providerOf env) (fallbackModelOf env)
                  pr.system pr.user
                  (tempOfPayload (reqPayload (safeJsonParse (body.getD ""))))
                  f1 with ⟨err1⟩ | ⟨r1⟩
              · simp only [hr1, Except.ok.injEq, Prod.mk.injEq] at h
                obtain ⟨rfl, rfl, rfl⟩ := h
                refine ⟨by simp, fun c0 hc => absurd hc (by simp), ?_⟩
                intro c0 c1 hc
                simp only [List.cons.injEq, and_true] at hc
                obtain ⟨rfl, rfl⟩ := hc
                refine ⟨?_, rfl, rfl, rfl, rfl, rfl, rfl, ?_, ?_⟩
                · cases hcc0 : callChatCompletion env (providerOf env)
                      (primaryModel env) pr.system pr.user
                      (tempOfPayload (reqPayload (safeJsonParse (body.getD ""))))
                      f0 with
                  | error e1 => exact ⟨e1, rfl⟩
                  | ok u =>
                    rw [runModel_of_call_ok hcc0] at hr0
                    exact absurd hr0 (by simp)
                · intro ⟨u, hu⟩
                  have hu2 : callChatCompletion env (providerOf env)
                      (fallbackModelOf env) pr.system pr.user
                      (tempOfPayload (reqPayload (safeJsonParse (body.getD ""))))
                      f1 = .ok u := hu
                  rw [runModel_of_call_ok hu2] at hr1
                  exact absurd hr1 (by simp)
                · intro err herr
                  have herr2 : callChatCompletion env (providerOf env)
                      (fallbackModelOf env) pr.system pr.user
                      (tempOfPayload (reqPayload (safeJsonParse (body.getD ""))))
                      f1 = .error err := herr
                  rw [runModel_of_call_err herr2] at hr1
                  have h5 : err = err1 := Except.error.inj hr1
                  subst h5
                  exact ⟨rfl, rfl⟩
              · simp only [hr1, Except.ok.injEq, Prod.mk.injEq] at h
                obtain ⟨rfl, rfl, rfl⟩ := h
                refine ⟨by simp, fun c0 hc => absurd hc (by simp), ?_⟩
                intro c0 c1 hc
                simp only [List.cons.injEq, and_true] at hc
                obtain ⟨rfl, rfl⟩ := hc
                refine ⟨?_, rfl, rfl, rfl, rfl, rfl, rfl, fun _ => rfl, ?_⟩
                · cases hcc0 : callChatCompletion env (providerOf env)
                      (primaryModel env) pr.system pr.user
                      (tempOfPayload (reqPayload (safeJsonParse (body.getD ""))))
                      f0 with
                  | error e1 => exact ⟨e1, rfl⟩
                  | ok u =>
                    rw [runModel_of_call_ok hcc0] at hr0
                    exact absurd hr0 (by simp)
                · intro err herr
                  have herr2 : callChatCompletion env (providerOf env)
                      (fallbackModelOf env) pr.system pr.user
                      (tempOfPayload (reqPayload (safeJsonParse (body.getD ""))))
                      f1 = .error err := herr
                  rw [runModel_of_call_err herr2] at hr1
                  exact absurd hr1 (by simp)
            · simp only [hr0, Except.ok.injEq, Prod.mk.injEq] at h
              obtain ⟨rfl, rfl, rfl⟩ := h
              refine ⟨by simp, ?_, fun c0 c1 hc => absurd hc (by simp)⟩
              intro c0 hc
              simp only [List.cons.injEq, and_true] at hc
              obtain rfl := hc
              refine ⟨rfl, ?_, rfl⟩
              cases hcc0 : callChatCompletion env (providerOf env)
                  (primaryModel env) pr.system pr.user
                  (tempOfPayload (reqPayload (safeJsonParse (body.getD ""))))
                  f0 with
              | error e1 =>
                rw [runModel_of_call_err hcc0] at hr0
                exact absurd hr0 (by simp)
              | ok u => exact ⟨u, rfl⟩
        · simp only [Bool.not_eq_true] at hjs
          simp only [hjs, Bool.not_false, if_true, Except.ok.injEq,
            Prod.mk.injEq] at h
          obtain ⟨rfl, rfl, rfl⟩ := h
          exact ⟨by simp, fun c0 hc => absurd hc (by simp),
            fun c0 c1 hc => absurd hc (by simp)⟩
  · have heq : handler ⟨method, hdrs, body⟩ t m env f0 f1 =
        .ok (⟨405, corsHeaders (originOf ⟨method, hdrs, body⟩) ++
          [("Content-Type", "application/json; charset=utf-8")],
          errBody "Method Not Allowed"⟩, [], m) := by
      simp only [handler]
      rw [if_neg hm1, if_pos hm2]
    rw [heq] at h
    simp only [Except.ok.injEq, Prod.mk.injEq] at h
    obtain ⟨rfl, rfl, rfl⟩ := h
    exact ⟨by simp, fun c0 hc => absurd hc (by simp),
      fun c0 c1 hc => absurd hc (by simp)⟩

set_option maxRecDepth 8000 in
set_option maxHeartbeats 2000000 in
/-- Witness for C4 at a concrete run: primary upstream 500, fallback
network failure. -/
theorem C4_fallback_policy_witness :
    ∃ res tr m2,
      handler askEvent 0 [] sampleEnv (.httpResp false 500 "")
        (.netFail "boom") = .ok (res, tr, m2) ∧ tr.length ≤ 2 := by
  obtain ⟨res, tr, m2, h⟩ : ∃ res tr m2, handler askEvent 0 [] sampleEnv
      (.httpResp false 500 "") (.netFail "boom") = .ok (res, tr, m2) :=
    ⟨_, _, _, rfl⟩
  exact ⟨res, tr, m2, h, (C4_fallback_policy _ _ _ _ _ _ _ _ _ h).1⟩

/-! ## Claim C8 -/

set_option maxRecDepth 8000 in
set_option maxHeartbeats 2000000 in
/-- C8 counterexample: an upstream reply whose content is the bare number
`42` yields a 200 whose `result` member is the number 42, not a JSON
object. -/
theorem C8_result_not_object_counterexample :
    bodyField (hBody (handler askEvent 0 [] sampleEnv
      (.httpResp true 200 numChoicesText) (.netFail "x"))) "result" =
      some (.num 42) ∧
    isObjJson (.num 42) = false ∧
    hStatus (handler askEvent 0 [] sampleEnv
      (.httpResp true 200 numChoicesText) (.netFail "x")) = some 200 := by
  refine ⟨by decide, rfl, by decide⟩

/-- C8 (amended): every 200 response comes from a model call whose raw
content, after `extractJson`, gives a truthy `result` member — either the
extracted JSON value (of any type, not necessarily an object) or the
`{raw: clamped text}` wrapper when no truthy JSON was found. -/
theorem C8_result_truthy_amended (e : NfEvent) (t : Int) (m : RateBuckets)
    (env : Env) (f0 f1 : FetchOutcome) (res : Response)
    (tr : List CallRecord) (m2 : RateBuckets)
    (h : handler e t m env f0 f1 = .ok (res, tr, m2))
    (h200 : res.statusCode = 200) :
    ∃ c u, tr.getLast? = some c ∧ c.outcome = .ok u ∧
      getField (safeJsonParse res.body) "result" = runParsed u.raw ∧
      jsTruthy (runParsed u.raw) = true ∧
      (jsTruthy (extractJson u.raw) = false →
        runParsed u.raw =
          .obj (.cons "raw" (.str (clampString u.raw 50000)) .nil)) := by
  obtain ⟨method, hdrs, body⟩ := e
  by_cases hm1 : method = "OPTIONS"
  · subst hm1
    have heq : handler ⟨"OPTIONS", hdrs, body⟩ t m env f0 f1 =
        .ok (⟨204, corsHeaders (originOf ⟨"OPTIONS", hdrs, body⟩) ++
          [("Content-Type", "application/json; charset=utf-8")], ""⟩, [],
          m) := rfl
    rw [heq] at h
    simp only [Except.ok.injEq, Prod.mk.injEq] at h
    obtain ⟨rfl, rfl, rfl⟩ := h
    exact absurd h200 (by simp)
  by_cases hm2 : method = "POST"
  · subst hm2
    rcases hdrs with _ | hs
    · rw [show handler ⟨"POST", none, body⟩ t m env f0 f1 =
        .error ⟨"TypeError: Cannot read properties of undefined"⟩ from rfl] at h
      exact absurd h (by simp)
    have heq := handler_post_step hs body t m env f0 f1
    rw [heq] at h
    clear heq
    cases hrl : (rateLimit t (ipOf hs) m).1 with
    | false =>
      simp only [hrl, Bool.not_false, if_true, Except.ok.injEq,
        Prod.mk.injEq] at h
      obtain ⟨rfl, rfl, rfl⟩ := h
      exact absurd h200 (by simp)
    | true =>
      simp only [hrl, Bool.not_true, Bool.false_eq_true, if_false] at h
      by_cases hbig : (body.getD "").length > MAX_BODY_CHARS
      · rw [if_pos hbig] at h
        simp only [Except.ok.injEq, Prod.mk.injEq] at h
        obtain ⟨rfl, rfl, rfl⟩ := h
        exact absurd h200 (by simp)
      · rw [if_neg hbig] at h
        by_cases hjs : jsTruthy (safeJsonParse (body.getD "")) = true
        · simp only [hjs, Bool.not_true, Bool.false_eq_true, if_false] at h
          rcases hbp : buildPrompts (reqTask (safeJsonParse (body.getD "")))
              (reqPayload (safeJsonParse (body.getD "")))
              (reqMeta (safeJsonParse (body.getD ""))) with _ | pr
          · simp only [hbp, Except.ok.injEq, Prod.mk.injEq] at h
            obtain ⟨rfl, rfl, rfl⟩ := h
            exact absurd h200 (by simp)
          · simp only [hbp] at h
            rcases hr0 : runModel env (providerOf env) (primaryModel env)
                pr.system pr.user
                (tempOfPayload (reqPayload (safeJsonParse (body.getD ""))))
                f0 with ⟨err0⟩ | ⟨r0⟩
            · simp only [hr0] at h
              rcases hr1 : runModel env (providerOf env) (fallbackModelOf env)
                  pr.system pr.user
                  (tempOfPayload (reqPayload (safeJsonParse (body.getD ""))))
                  f1 with ⟨err1⟩ | ⟨r1⟩
              · simp only [hr1, Except.ok.injEq, Prod.mk.injEq] at h
                obtain ⟨rfl, rfl, rfl⟩ := h
                exact absurd h200 (by simp)
              · simp only [hr1, Except.ok.injEq, Prod.mk.injEq] at h
                obtain ⟨rfl, rfl, rfl⟩ := h
                cases hcc1 : callChatCompletion env (providerOf env)
                    (fallbackModelOf env) pr.system pr.user
                    (tempOfPayload (reqPayload (safeJsonParse (body.getD ""))))
                    f1 with
                | error e1 =>
                  rw [runModel_of_call_err hcc1] at hr1
                  exact absurd hr1 (by simp)
                | ok u =>
                  rw [runModel_of_call_ok hcc1] at hr1
                  obtain rfl := Except.ok.inj hr1
                  exact ⟨_, u, rfl, rfl, successBody_result _ _ _ _ _,
                    runParsed_truthy _, fun hm => runParsed_of_miss hm⟩
            · simp only [hr0, Except.ok.injEq, Prod.mk.injEq] at h
              obtain ⟨rfl, rfl, rfl⟩ := h
              cases hcc0 : callChatCompletion env (providerOf env)
                  (primaryModel env) pr.system pr.user
                  (tempOfPayload (reqPayload (safeJsonParse (body.getD ""))))
                  f0 with
              | error e1 =>
                rw [runModel_of_call_err hcc0] at hr0
                exact absurd hr0 (by simp)
              | ok u =>
                rw [runModel_of_call_ok hcc0] at hr0
                obtain rfl := Except.ok.inj hr0
                exact ⟨_, u, rfl, rfl, successBody_result _ _ _ _ _,
                  runParsed_truthy _, fun hm => runParsed_of_miss hm⟩
        · simp only [Bool.not_eq_true] at hjs
          simp only [hjs, Bool.not_false, if_true, Except.ok.injEq,
            Prod.mk.injEq] at h
          obtain ⟨rfl, rfl, rfl⟩ := h
          exact absurd h200 (by simp)
  · have heq : handler ⟨method, hdrs, body⟩ t m env f0 f1 =
        .ok (⟨405, corsHeaders (originOf ⟨method, hdrs, body⟩) ++
          [("Content-Type", "application/json; charset=utf-8")],
          errBody "Method Not Allowed"⟩, [], m) := by
      simp only [handler]
      rw [if_neg hm1, if_pos hm2]
    rw [heq] at h
    simp only [Except.ok.injEq, Prod.mk.injEq] at h
    obtain ⟨rfl, rfl, rfl⟩ := h
    exact absurd h200 (by simp)

set_option maxRecDepth 8000 in
set_option maxHeartbeats 2000000 in
/-- Witness for C8 (amended) at a concrete successful run. -/
theorem C8_result_truthy_witness :
    ∃ res tr m2 c u,
      handler askEvent 0 [] sampleEnv (.httpResp true 200 okChoicesText)
        (.netFail "x") = .ok (res, tr, m2) ∧ tr.getLast? = some c ∧
      c.outcome = .ok u ∧ jsTruthy (runParsed u.raw) = true := by
  obtain ⟨res, tr, m2, h⟩ : ∃ res tr m2, handler askEvent 0 [] sampleEnv
      (.httpResp true 200 okChoicesText) (.netFail "x") = .ok (res, tr, m2) :=
    ⟨_, _, _, rfl⟩
  have hst : hStatus (handler askEvent 0 [] sampleEnv
      (.httpResp true 200 okChoicesText) (.netFail "x")) = some 200 := by
    decide
  rw [h] at hst
  simp only [hStatus, hResp, Option.map_some', Option.some.injEq] at hst
  obtain ⟨c, u, h1, h2, _, h4, _⟩ :=
    C8_result_truthy_amended _ _ _ _ _ _ _ _ _ h hst
  exact ⟨res, tr, m2, c, u, h, h1, h2, h4⟩

/-! ## Claim C1 -/

def callOk : Except JsError UpstreamOut → Bool
  | .ok _ => true
  | .error _ => false

set_option maxRecDepth 8000 in
set_option maxHeartbeats 2000000 in
/-- C1 (code bug): with `MODEL_TEXT = model-a` and
`MODEL_TEXT_FALLBACK = model-b`, a run whose primary call fails with an
upstream 500 and whose fallback call succeeds answers 200 — produced by the
fallback model `model-b` — yet the body's `model_used` member still says
`model-a`: line 334 hardcodes the primary `model` instead of the name of
the model that actually answered. -/
theorem C1_model_used_code_bug :
    hStatus (handler askEvent 0 [] sampleEnv (.httpResp false 500 "")
      (.httpResp true 200 okChoicesText)) = some 200 ∧
    bodyField (hBody (handler askEvent 0 [] sampleEnv (.httpResp false 500 "")
      (.httpResp true 200 okChoicesText))) "model_used" =
      some (.str "model-a") ∧
    (hTrace (handler askEvent 0 [] sampleEnv (.httpResp false 500 "")
      (.httpResp true 200 okChoicesText))).map CallRecord.model =
      ["model-a", "model-b"] ∧
    ((hTrace (handler askEvent 0 [] sampleEnv (.httpResp false 500 "")
      (.httpResp true 200 okChoicesText))).getLast?).map
        (fun c => (c.model, callOk c.outcome)) = some ("model-b", true) ∧
    primaryModel sampleEnv = some "model-a" ∧
    fallbackModelOf sampleEnv = some "model-b" := by
  refine ⟨by decide, by decide, by decide, by decide, rfl, rfl⟩
